import Mathlib

/-!
Verification development for the ADF (Atlassian Document Format) → AsciiDoc
conversion helper scripts (`helper_scripts/adf_resources.py`,
`helper_scripts/adf_media.py`, `helper_scripts/upload_to_confluence.py`).

ADF documents are JSON trees: every node is a Python dict with optional
`type`, `attrs`, `content`, `marks`, `text` entries.  We embed JSON values
shallowly as the mutually inductive `JVal`/`JFields`/`JList`; Python numbers
are modelled as integers (the repository's documents and tests only use
integer dimensions), and Python dicts as ordered key/value lists in which a
key occurs at most once (first binding wins on lookup, matching dict
semantics for the well-formed dicts the scripts build and consume).
-/

mutual

inductive JVal where
  | str (s : String)
  | int (n : Int)
  | bool (b : Bool)
  | null
  | obj (fields : JFields)
  | arr (items : JList)
  deriving DecidableEq, Repr

inductive JFields where
  | nil
  | cons (k : String) (v : JVal) (rest : JFields)
  deriving DecidableEq, Repr

inductive JList where
  | nil
  | cons (v : JVal) (rest : JList)
  deriving DecidableEq, Repr

end

namespace JFields

/-- Python `dict.get(k)`: first binding wins. -/
def lookup? : JFields → String → Option JVal
  | .nil, _ => none
  | .cons k' v rest, k => if k' = k then some v else rest.lookup? k

/-- Python dict assignment `d[k] = v`: replace the first binding for `k` in
place (keeping its position) or append a new binding at the end. -/
def set : JFields → String → JVal → JFields
  | .nil, k, v => .cons k v .nil
  | .cons k' v' rest, k, v =>
    if k' = k then .cons k v rest else .cons k' v' (rest.set k v)

/-- Python `del d[k]` / `d.pop(k)` effect on the bindings: remove the first
binding for `k`. -/
def erase : JFields → String → JFields
  | .nil, _ => .nil
  | .cons k' v' rest, k =>
    if k' = k then rest else .cons k' v' (rest.erase k)

def toList : JFields → List (String × JVal)
  | .nil => []
  | .cons k v rest => (k, v) :: rest.toList

def length (fs : JFields) : Nat := fs.toList.length

end JFields

namespace JList

def toList : JList → List JVal
  | .nil => []
  | .cons v rest => v :: rest.toList

def ofList : List JVal → JList
  | [] => .nil
  | v :: rest => .cons v (ofList rest)

def length (l : JList) : Nat := l.toList.length

end JList

namespace JVal

/-- Python `node.get(k)` for a dict-shaped value (`None`, i.e. absent, is
`none`).  All call sites in the scripts apply it to dicts; for non-dict
values we answer `none`, which matches the permissive "missing key" path. -/
def dget? : JVal → String → Option JVal
  | .obj fields, k => fields.lookup? k
  | _, _ => none

/-- Python `node.get(k, default)`. -/
def dgetD (j : JVal) (k : String) (d : JVal) : JVal :=
  (j.dget? k).getD d

/-- Python `k in d`. -/
def hasKey (j : JVal) (k : String) : Bool :=
  (j.dget? k).isSome

/-- Python `d[k] = v` (as a value transformation; no-op on non-dicts, which
would raise in Python but never occurs in the scripts). -/
def dset : JVal → String → JVal → JVal
  | .obj fields, k, v => .obj (fields.set k v)
  | j, _, _ => j

/-- Python truthiness `bool(x)` of a JSON value. -/
def isTruthy : JVal → Bool
  | .str s => !(s = "")
  | .int n => !(n = 0)
  | .bool b => b
  | .null => false
  | .obj fields => !(fields = JFields.nil)
  | .arr items => !(items = JList.nil)

/-- `node.get("type")` as a string (`none` when absent or not a string). -/
def typeStr? (j : JVal) : Option String :=
  match j.dget? "type" with
  | some (.str s) => some s
  | _ => none

end JVal

/-- Lookup in a Python `str → str` dict (the filename → fileId mapping);
first binding wins. -/
def smapGet? (m : List (String × String)) (k : String) : Option String :=
  match m with
  | [] => none
  | (k', v) :: rest => if k' = k then some v else smapGet? rest k

/-!
Section: A structural weight for termination

The rewrite passes below mirror Python code that first mutates a node's
`attrs.id` (or `attrs.width`/`attrs.height`) in place and then iterates over
the node's entries, so the recursion descends into an already-rewritten
value.  Scalar rewrites do not change the constructor count, so we use a
weight that counts constructors (every scalar weighs 1) as the termination
measure.
-/

mutual

def jweightV : JVal → Nat
  | .str _ => 1
  | .int _ => 1
  | .bool _ => 1
  | .null => 1
  | .obj fields => 1 + jweightF fields
  | .arr items => 1 + jweightL items

def jweightF : JFields → Nat
  | .nil => 0
  | .cons _ v rest => 1 + jweightV v + jweightF rest

def jweightL : JList → Nat
  | .nil => 0
  | .cons v rest => 1 + jweightV v + jweightL rest

end

theorem jweightF_set : ∀ (fs : JFields) (k : String) (v v' : JVal),
    fs.lookup? k = some v → jweightV v' = jweightV v →
    jweightF (fs.set k v') = jweightF fs
  | .nil, k, v, v', hl, _ => by simp [JFields.lookup?] at hl
  | .cons k0 v0 rest, k, v, v', hl, hw => by
    by_cases hk : k0 = k
    · subst hk
      simp [JFields.lookup?] at hl
      simp [JFields.set, jweightF, hw, hl]
    · simp [JFields.lookup?, hk] at hl
      simp [JFields.set, hk, jweightF, jweightF_set rest k v v' hl hw]

/-- If a lookup through `dgetD "attrs" {}` succeeds, the node really has an
object-valued `attrs` entry, and the lookup happened in it. -/
theorem dget_attrs_of_inner (node : JVal) (k : String) (v : JVal)
    (h : (node.dgetD "attrs" (.obj .nil)).dget? k = some v) :
    ∃ afs, node.dget? "attrs" = some (.obj afs) ∧ JFields.lookup? afs k = some v := by
  rcases hattrs : node.dget? "attrs" with _ | av
  · rw [JVal.dgetD, hattrs] at h
    simp [Option.getD, JVal.dget?, JFields.lookup?] at h
  · rw [JVal.dgetD, hattrs] at h
    cases av with
    | obj afs => exact ⟨afs, rfl, by simpa [JVal.dget?] using h⟩
    | str s => simp [Option.getD, JVal.dget?] at h
    | int n => simp [Option.getD, JVal.dget?] at h
    | bool b => simp [Option.getD, JVal.dget?] at h
    | null => simp [Option.getD, JVal.dget?] at h
    | arr l => simp [Option.getD, JVal.dget?] at h

/-!
Section: Attachment-id substitution (`update_adf_media_ids`)

`helper_scripts/adf_resources.py` lines 580–620.  The Python function makes
a *shallow* copy of the root dict and then walks the structure with
`process_node_recursively`, assigning `node["attrs"]["id"]` in place.  The
value computed for the *returned* tree is the recursive substitution below
(`mediaIdSubst`); the aliasing consequences for the caller's tree are
analysed separately with the heap model further down.
-/

/-- One step of `process_node_recursively`'s media check on a single dict
node (adf_resources.py lines 598–605): if `node.get("type")` is `"media"`
or `"mediaInline"` and `node.get("attrs", {}).get("collection")` equals
`"attachments"` and the current `attrs.id` is a key of the mapping, rebind
`node["attrs"]["id"]` to the mapped file id. -/
def mediaIdSubstStep (m : List (String × String)) (node : JVal) : JVal :=
  if (node.typeStr? = some "media" ∨ node.typeStr? = some "mediaInline") ∧
      (node.dgetD "attrs" (.obj .nil)).dget? "collection" = some (.str "attachments") then
    match (node.dgetD "attrs" (.obj .nil)).dget? "id" with
    | some (.str currentId) =>
      match smapGet? m currentId with
      | some fid => node.dset "attrs" ((node.dgetD "attrs" (.obj .nil)).dset "id" (.str fid))
      | none => node
    | _ => node
  else
    node

theorem jweightV_mediaIdSubstStep (m : List (String × String)) (node : JVal) :
    jweightV (mediaIdSubstStep m node) = jweightV node := by
  unfold mediaIdSubstStep
  split
  · rename_i hguard
    obtain ⟨-, hcoll⟩ := hguard
    split
    · rename_i currentId hid
      split
      · rename_i fid hfid
        obtain ⟨afs, hattrs, hlook⟩ := dget_attrs_of_inner node "id" (.str currentId) hid
        cases node with
        | obj fs =>
          simp only [JVal.dget?] at hattrs
          have hinner : jweightF (afs.set "id" (.str fid)) = jweightF afs :=
            jweightF_set afs "id" (.str currentId) (.str fid) hlook (by simp [jweightV])
          simp only [JVal.dgetD, JVal.dget?, hattrs, Option.getD, JVal.dset]
          simp only [jweightV]
          rw [jweightF_set fs "attrs" (.obj afs) _ hattrs (by simp [jweightV, hinner])]
        | str s => simp [JVal.dget?] at hattrs
        | int n => simp [JVal.dget?] at hattrs
        | bool b => simp [JVal.dget?] at hattrs
        | null => simp [JVal.dget?] at hattrs
        | arr l => simp [JVal.dget?] at hattrs
      · rfl
    · rfl
  · rfl

/-- `mediaIdSubstStep` on a dict, exposed at the field-list level (the step
always returns a dict when given one, because `dset` preserves dicts). -/
def mediaIdSubstStepF (m : List (String × String)) (fs : JFields) : JFields :=
  match mediaIdSubstStep m (.obj fs) with
  | .obj fs' => fs'
  | _ => fs

theorem jweightF_mediaIdSubstStepF (m : List (String × String)) (fs : JFields) :
    jweightF (mediaIdSubstStepF m fs) = jweightF fs := by
  unfold mediaIdSubstStepF
  have h := jweightV_mediaIdSubstStep m (.obj fs)
  split
  · rename_i fs' hstep
    rw [hstep] at h
    simpa [jweightV] using h
  · rfl

mutual

/-- `process_node_recursively` (adf_resources.py lines 594–614) as a value
transformation: apply the media check to the dict itself, then recurse into
every dict value, and into the dict items of every list value (non-dict
list items — including nested lists — are *not* recursed into, mirroring
the `isinstance(item, dict)` guard). Non-dict arguments are returned
unchanged (`if not isinstance(node, dict): return`). -/
def mediaIdSubst (m : List (String × String)) : JVal → JVal
  | .obj fields => .obj (mediaIdSubstFields m (mediaIdSubstStepF m fields))
  | j => j
termination_by j => jweightV j
decreasing_by
  simp_wf
  rw [jweightF_mediaIdSubstStepF]
  simp [jweightV]

def mediaIdSubstFields (m : List (String × String)) : JFields → JFields
  | .nil => .nil
  | .cons k v rest =>
    match v with
    | .obj fs => .cons k (mediaIdSubst m (.obj fs)) (mediaIdSubstFields m rest)
    | .arr items => .cons k (.arr (mediaIdSubstItems m items)) (mediaIdSubstFields m rest)
    | other => .cons k other (mediaIdSubstFields m rest)
termination_by fs => jweightF fs
decreasing_by
  all_goals simp_wf
  all_goals simp [jweightV, jweightF, jweightL]
  all_goals omega

def mediaIdSubstItems (m : List (String × String)) : JList → JList
  | .nil => .nil
  | .cons v rest =>
    match v with
    | .obj fs => .cons (mediaIdSubst m (.obj fs)) (mediaIdSubstItems m rest)
    | other => .cons other (mediaIdSubstItems m rest)
termination_by l => jweightL l
decreasing_by
  all_goals simp_wf
  all_goals simp [jweightV, jweightF, jweightL]
  all_goals omega

end

/-- `update_adf_media_ids(adf_json, filename_to_fileid)` from
adf_resources.py lines 580–620, as a function from the inputs to the
*returned* tree: guard (`if not adf_json or not filename_to_fileid: return
adf_json`), then the recursive substitution.  (The Python function performs
the substitution by in-place mutation after `adf_json.copy()`; the heap
model below shows what that does to the caller's tree.) -/
def update_adf_media_ids (adf : JVal) (m : List (String × String)) : JVal :=
  if !adf.isTruthy ∨ m = [] then adf
  else mediaIdSubst m adf

/-!
Section: Attachment-id substitution, `adf_media.py` variant

`helper_scripts/adf_media.py` lines 6–22: `recurse_update` applied to
`copy.deepcopy(adf_json)`.  Because of the deep copy the caller's tree is
untouched; the returned value is the recursion below.  Differences from the
adf_resources.py variant: no `collection == "attachments"` check (only
`"attrs" in node`), the current id must be *truthy* (a non-empty string),
and the recursion descends through *all* dict values and list items
(nested lists included).
-/

/-- The media check of `recurse_update` (adf_media.py lines 11–15) on one
dict's bindings.  `attrs.get("id")` is only consulted when `attrs` is a
dict (a non-dict `attrs` would raise in Python; it never occurs in ADF). -/
def adfMediaStepF (m : List (String × String)) (fs : JFields) : JFields :=
  if ((JVal.obj fs).typeStr? = some "media" ∨ (JVal.obj fs).typeStr? = some "mediaInline") ∧
      (JVal.obj fs).hasKey "attrs" then
    match fs.lookup? "attrs" with
    | some (.obj afs) =>
      match afs.lookup? "id" with
      | some (.str fileName) =>
        if fileName = "" then fs
        else
          match smapGet? m fileName with
          | some fid => fs.set "attrs" (.obj (afs.set "id" (.str fid)))
          | none => fs
      | _ => fs
    | _ => fs
  else fs

theorem jweightF_adfMediaStepF (m : List (String × String)) (fs : JFields) :
    jweightF (adfMediaStepF m fs) = jweightF fs := by
  unfold adfMediaStepF
  split
  · split
    · rename_i afs hattrs
      split
      · rename_i fileName hid
        split
        · rfl
        · split
          · rename_i fid hfid
            have hinner : jweightF (afs.set "id" (.str fileName)) = jweightF afs := by
              exact jweightF_set afs "id" (.str fileName) (.str fileName) hid rfl
            rw [jweightF_set fs "attrs" (.obj afs) _ hattrs ?_]
            simp only [jweightV]
            rw [jweightF_set afs "id" (.str fileName) (.str fid) hid (by simp [jweightV])]
          · rfl
      · rfl
    · rfl
  · rfl

mutual

/-- `recurse_update` from adf_media.py: the media check, then rebuild every
dict value and list item recursively. -/
def adfMediaRecurseUpdate (m : List (String × String)) : JVal → JVal
  | .obj fields => .obj (adfMediaRecurseFields m (adfMediaStepF m fields))
  | .arr items => .arr (adfMediaRecurseList m items)
  | j => j
termination_by j => jweightV j
decreasing_by
  all_goals simp_wf
  · rw [jweightF_adfMediaStepF]
    simp [jweightV]
  · simp [jweightV]

def adfMediaRecurseFields (m : List (String × String)) : JFields → JFields
  | .nil => .nil
  | .cons k v rest => .cons k (adfMediaRecurseUpdate m v) (adfMediaRecurseFields m rest)
termination_by fs => jweightF fs
decreasing_by
  all_goals simp_wf
  all_goals simp [jweightV, jweightF]
  all_goals omega

def adfMediaRecurseList (m : List (String × String)) : JList → JList
  | .nil => .nil
  | .cons v rest => .cons (adfMediaRecurseUpdate m v) (adfMediaRecurseList m rest)
termination_by l => jweightL l
decreasing_by
  all_goals simp_wf
  all_goals simp [jweightV, jweightL]
  all_goals omega

end

/-- `update_adf_media_ids` from `helper_scripts/adf_media.py` (deep-copy
variant): the returned tree. -/
def adfMedia_update_adf_media_ids (adf : JVal) (m : List (String × String)) : JVal :=
  adfMediaRecurseUpdate m adf

/-!
Section: Generic dict lemmas
-/

theorem JFields.lookup?_set_self : ∀ (fs : JFields) (k : String) (v : JVal),
    (fs.set k v).lookup? k = some v
  | .nil, k, v => by simp [JFields.set, JFields.lookup?]
  | .cons k0 v0 rest, k, v => by
    by_cases hk : k0 = k
    · simp [JFields.set, hk, JFields.lookup?]
    · simp [JFields.set, hk, JFields.lookup?, JFields.lookup?_set_self rest k v]

theorem JFields.lookup?_set_other : ∀ (fs : JFields) (k : String) (v : JVal) (k' : String),
    k ≠ k' → (fs.set k v).lookup? k' = fs.lookup? k'
  | .nil, k, v, k', h => by simp [JFields.set, JFields.lookup?, h]
  | .cons k0 v0 rest, k, v, k', h => by
    by_cases hk : k0 = k
    · subst hk
      simp [JFields.set, JFields.lookup?, h]
    · simp [JFields.set, hk, JFields.lookup?,
        JFields.lookup?_set_other rest k v k' h]

theorem JFields.set_self : ∀ (fs : JFields) (k : String) (v : JVal),
    fs.lookup? k = some v → fs.set k v = fs
  | .nil, k, v, h => by simp [JFields.lookup?] at h
  | .cons k0 v0 rest, k, v, h => by
    by_cases hk : k0 = k
    · subst hk
      simp [JFields.lookup?] at h
      simp [JFields.set, h]
    · simp [JFields.lookup?, hk] at h
      simp [JFields.set, hk, JFields.set_self rest k v h]

theorem JFields.set_ne_nil : ∀ (fs : JFields) (k : String) (v : JVal),
    fs.set k v ≠ .nil
  | .nil, k, v => by simp [JFields.set]
  | .cons k0 v0 rest, k, v => by
    by_cases hk : k0 = k <;> simp [JFields.set, hk]

/-!
Section: Image-dimension clamping (`update_adf_image_dimensions`)

The repository imports `update_adf_image_dimensions` from `adf_resources`
(`upload_to_confluence.py` line 5) and exercises it in
`tests/test_adf_dimensions.py`, but the function body itself is not present
in the sources available here.  It is therefore modelled from the
specification (spec §4.9 "Image-dimension clamping"), which defines
`clampWidths(tree, maxWidth)`.
-/

/-- Rounding used for the aspect-ratio recomputation `round(maxWidth *
height / width)`; modelled as round-half-up on integers (all dimensions in
the repository's documents and tests are non-negative integers, and no test
exercises a half-way case). -/
def specRound (num den : Int) : Int :=
  Int.ediv (2 * num + den) (2 * den)

/-- Modelled from the spec: the per-node rule of §4.9 on a node's `attrs`
mapping.  "For every media/media-inline/media-group node whose `width`
attribute is numeric and exceeds `maxWidth`: set width to `maxWidth`; if
`height` is also numeric, recompute `height = round(maxWidth * height /
width_original)` to preserve aspect ratio; if width is non-numeric (e.g. a
keyword), leave both attributes untouched." -/
def clampAttrs (w : Int) (attrs : JVal) : JVal :=
  match attrs.dget? "width" with
  | some (.int n) =>
    if w < n then
      let a1 := attrs.dset "width" (.int w)
      match attrs.dget? "height" with
      | some (.int h) => a1.dset "height" (.int (specRound (w * h) n))
      | _ => a1
    else attrs
  | _ => attrs

/-- Modelled from the spec: apply the §4.9 rule to one node — only nodes of
type `media`, `mediaInline` or `mediaGroup` with an `attrs` entry are
affected. -/
def clampStepF (w : Int) (fs : JFields) : JFields :=
  if (JVal.obj fs).typeStr? = some "media" ∨ (JVal.obj fs).typeStr? = some "mediaInline" ∨
      (JVal.obj fs).typeStr? = some "mediaGroup" then
    match fs.lookup? "attrs" with
    | some attrs => fs.set "attrs" (clampAttrs w attrs)
    | none => fs
  else fs

theorem jweightV_clampAttrs (w : Int) (attrs : JVal) :
    jweightV (clampAttrs w attrs) = jweightV attrs := by
  unfold clampAttrs
  split
  · rename_i n hw
    split
    · rcases attrs with s | n' | b | _ | afs | l <;> simp [JVal.dget?] at hw
      have h1 : jweightF (afs.set "width" (.int w)) = jweightF afs :=
        jweightF_set afs "width" (.int n) (.int w) hw (by simp [jweightV])
      split
      · rename_i h hh
        simp only [JVal.dget?] at hh
        have hw' : (afs.set "width" (JVal.int w)).lookup? "height" = some (.int h) :=
          (JFields.lookup?_set_other afs "width" (.int w) "height" (by decide)).trans hh
        simp only [JVal.dset, jweightV]
        rw [jweightF_set (afs.set "width" (.int w)) "height" (.int h) _ hw' (by simp [jweightV]),
          h1]
      · simp [JVal.dset, jweightV, h1]
    · rfl
  · rfl

theorem jweightF_clampStepF (w : Int) (fs : JFields) :
    jweightF (clampStepF w fs) = jweightF fs := by
  unfold clampStepF
  split
  · split
    · rename_i attrs hattrs
      exact jweightF_set fs "attrs" attrs _ hattrs (jweightV_clampAttrs w attrs)
    · rfl
  · rfl

mutual

/-- Modelled from the spec (§4.9): the whole-tree pass applies the clamp
rule to every media-family node, visiting every dict value and list item. -/
def clampRec (w : Int) : JVal → JVal
  | .obj fields => .obj (clampFields w (clampStepF w fields))
  | .arr items => .arr (clampList w items)
  | j => j
termination_by j => jweightV j
decreasing_by
  all_goals simp_wf
  · rw [jweightF_clampStepF]
    simp [jweightV]
  · simp [jweightV]

def clampFields (w : Int) : JFields → JFields
  | .nil => .nil
  | .cons k v rest => .cons k (clampRec w v) (clampFields w rest)
termination_by fs => jweightF fs
decreasing_by
  all_goals simp_wf
  all_goals simp [jweightV, jweightF]
  all_goals omega

def clampList (w : Int) : JList → JList
  | .nil => .nil
  | .cons v rest => .cons (clampRec w v) (clampList w rest)
termination_by l => jweightL l
decreasing_by
  all_goals simp_wf
  all_goals simp [jweightV, jweightL]
  all_goals omega

end

/-- Modelled from the spec (§4.9): `update_adf_image_dimensions(adf,
max_width)` — "No-op when `maxWidth` is zero or absent", otherwise the
whole-tree clamping pass.  `maxWidth` absent is `none`. -/
def update_adf_image_dimensions (adf : JVal) (maxWidth : Option Int) : JVal :=
  match maxWidth with
  | none => adf
  | some w => if w = 0 then adf else clampRec w adf

/-!
Section: A heap model of Python dict mutation

`update_adf_media_ids` in adf_resources.py copies the root with the
*shallow* `dict.copy()` (line 617, commented "Create a copy to avoid
modifying the original") and then `process_node_recursively` assigns
`node["attrs"]["id"]` in place (line 605).  After a shallow copy every
nested object — in particular every `attrs` dict — is still shared with the
caller's tree, so those assignments are visible through the caller's
reference.  To make that analysis checkable we model Python values as
scalars plus references into a heap of mutable dict/list objects and run
the function's operational behaviour in that model.
-/

inductive PScalar where
  | s (v : String)
  | i (v : Int)
  | b (v : Bool)
  | none_
  deriving DecidableEq, Repr

/-- A Python value: an immutable scalar, or a reference to a heap object. -/
inductive PVal where
  | scalar (v : PScalar)
  | ref (a : Nat)
  deriving DecidableEq, Repr

/-- A mutable Python object: a dict or a list. -/
inductive PObj where
  | dict (fields : List (String × PVal))
  | plist (items : List PVal)
  deriving DecidableEq, Repr

abbrev Heap := List (Nat × PObj)

def heapGet? (h : Heap) (a : Nat) : Option PObj :=
  match h with
  | [] => none
  | (a', o) :: rest => if a' = a then some o else heapGet? rest a

def heapSet (h : Heap) (a : Nat) (o : PObj) : Heap :=
  match h with
  | [] => [(a, o)]
  | (a', o') :: rest => if a' = a then (a, o) :: rest else (a', o') :: heapSet rest a o

def freshAddr (h : Heap) : Nat :=
  (h.map Prod.fst).foldr Nat.max 0 + 1

def pdictGet? (fs : List (String × PVal)) (k : String) : Option PVal :=
  match fs with
  | [] => none
  | (k', v) :: rest => if k' = k then some v else pdictGet? rest k

def pdictSet (fs : List (String × PVal)) (k : String) (v : PVal) : List (String × PVal) :=
  match fs with
  | [] => [(k, v)]
  | (k', v') :: rest => if k' = k then (k, v) :: rest else (k', v') :: pdictSet rest k v

mutual

/-- `process_node_recursively(node)` (adf_resources.py lines 594–614) run
on the heap: perform the media check — mutating the *attrs object* in
place — then iterate over the node's entries, recursing into dict values
and into dict items of list values.  `fuel` bounds the recursion depth
(the Python function would not terminate on cyclic heaps; `json.load` never
produces one, and every theorem instantiates ample fuel). -/
def procRec (m : List (String × String)) : Nat → Heap → PVal → Heap
  | 0, h, _ => h
  | fuel + 1, h, v =>
    match v with
    | .scalar _ => h
    | .ref a =>
      match heapGet? h a with
      | some (.dict fs) =>
        let h1 :=
          match pdictGet? fs "type" with
          | some (.scalar (.s t)) =>
            if t = "media" ∨ t = "mediaInline" then
              match pdictGet? fs "attrs" with
              | some (.ref b) =>
                match heapGet? h b with
                | some (.dict afs) =>
                  if pdictGet? afs "collection" = some (.scalar (.s "attachments")) then
                    match pdictGet? afs "id" with
                    | some (.scalar (.s cur)) =>
                      match smapGet? m cur with
                      | some fid => heapSet h b (.dict (pdictSet afs "id" (.scalar (.s fid))))
                      | none => h
                    | _ => h
                  else h
                | _ => h
              | _ => h
            else h
          | _ => h
        match heapGet? h1 a with
        | some (.dict fs1) => procFields m fuel h1 fs1
        | _ => h1
      | _ => h

def procFields (m : List (String × String)) : Nat → Heap → List (String × PVal) → Heap
  | _, h, [] => h
  | fuel, h, (_, v) :: rest =>
    let h' :=
      match v with
      | .ref b =>
        match heapGet? h b with
        | some (.dict _) => procRec m fuel h (.ref b)
        | some (.plist items) => procItems m fuel h items
        | none => h
      | .scalar _ => h
    procFields m fuel h' rest

def procItems (m : List (String × String)) : Nat → Heap → List PVal → Heap
  | _, h, [] => h
  | fuel, h, v :: rest =>
    let h' :=
      match v with
      | .ref b =>
        match heapGet? h b with
        | some (.dict _) => procRec m fuel h (.ref b)
        | _ => h
      | .scalar _ => h
    procItems m fuel h' rest

end

/-- Python truthiness of a value read through the heap. -/
def pIsTruthy (h : Heap) (v : PVal) : Bool :=
  match v with
  | .scalar (.s s) => !(s = "")
  | .scalar (.i n) => !(n = 0)
  | .scalar (.b b) => b
  | .scalar .none_ => false
  | .ref a =>
    match heapGet? h a with
    | some (.dict fs) => !(fs = [])
    | some (.plist l) => !(l = [])
    | none => false

/-- `update_adf_media_ids` (adf_resources.py lines 580–620) run on the
heap: the falsy guard, then `updated_adf = adf_json.copy()` — a *shallow*
copy allocating a fresh dict that shares every value with the original —
then `process_node_recursively(updated_adf)`, returning the copy. -/
def updateAdfMediaIdsHeap (fuel : Nat) (h : Heap) (root : PVal)
    (m : List (String × String)) : Heap × PVal :=
  if !pIsTruthy h root ∨ m = [] then (h, root)
  else
    match root with
    | .ref a =>
      match heapGet? h a with
      | some (.dict fs) =>
        let fresh := freshAddr h
        let h1 := (fresh, PObj.dict fs) :: h
        (procRec m fuel h1 (.ref fresh), .ref fresh)
      | _ => (h, root)
    | _ => (h, root)

mutual

/-- Read a value back out of the heap as a JSON tree (for value-equality
comparisons of what the caller observes). -/
def readBack (h : Heap) : Nat → PVal → JVal
  | 0, _ => .null
  | fuel + 1, v =>
    match v with
    | .scalar (.s s) => .str s
    | .scalar (.i n) => .int n
    | .scalar (.b b) => .bool b
    | .scalar .none_ => .null
    | .ref a =>
      match heapGet? h a with
      | some (.dict fs) => .obj (readBackFields h fuel fs)
      | some (.plist l) => .arr (readBackList h fuel l)
      | none => .null

def readBackFields (h : Heap) : Nat → List (String × PVal) → JFields
  | _, [] => .nil
  | fuel, (k, v) :: rest => .cons k (readBack h fuel v) (readBackFields h fuel rest)

def readBackList (h : Heap) : Nat → List PVal → JList
  | _, [] => .nil
  | fuel, v :: rest => .cons (readBack h fuel v) (readBackList h fuel rest)

end

/-- Values of a dict rebuilt by `clampFields`: lookup maps through `clampRec`. -/
theorem clampFields_lookup? : ∀ (w : Int) (fs : JFields) (k : String),
    (clampFields w fs).lookup? k = (fs.lookup? k).map (clampRec w)
  | w, .nil, k => by simp [clampFields, JFields.lookup?]
  | w, .cons k0 v rest, k => by
    by_cases hk : k0 = k
    · simp [clampFields, JFields.lookup?, hk]
    · simp [clampFields, JFields.lookup?, hk, clampFields_lookup? w rest k]

theorem clampStepF_lookup?_other (w : Int) (fs : JFields) (k : String) (hk : k ≠ "attrs") :
    (clampStepF w fs).lookup? k = fs.lookup? k := by
  unfold clampStepF
  split
  · split
    · rename_i attrs hattrs
      exact JFields.lookup?_set_other fs "attrs" _ k (by exact fun h => hk h.symm)
    · rfl
  · rfl

/-- `clampRec` preserves the constructor class of a value; in particular a
string stays the same string. -/
theorem clampRec_str (w : Int) (s : String) : clampRec w (.str s) = .str s := by
  simp [clampRec]

theorem typeStr?_clamped (w : Int) (fs : JFields) :
    (JVal.obj (clampFields w (clampStepF w fs))).typeStr? = (JVal.obj fs).typeStr? := by
  unfold JVal.typeStr?
  have h1 : (JVal.obj (clampFields w (clampStepF w fs))).dget? "type"
      = ((fs.lookup? "type").map (clampRec w)) := by
    simp [JVal.dget?, clampFields_lookup?, clampStepF_lookup?_other w fs "type" (by decide)]
  rw [h1]
  simp [JVal.dget?]
  rcases fs.lookup? "type" with _ | v
  · rfl
  · cases v <;> simp [clampRec]

theorem clampAttrs_noop (w : Int) (b : JVal)
    (h : ∀ x, b.dget? "width" = some (.int x) → ¬ w < x) : clampAttrs w b = b := by
  unfold clampAttrs
  split
  · rename_i n hn
    rw [if_neg (h n hn)]
  · rfl

/-- Only an int produces an int under `clampRec`. -/
theorem clampRec_int_inv (w : Int) (v : JVal) (x : Int) (h : clampRec w v = .int x) :
    v = .int x := by
  cases v <;> simp_all [clampRec]

/-- A numeric `width` of a clamped-and-recursed node was numeric before the
recursion step. -/
theorem clampRec_width_int (w : Int) (b : JVal) (x : Int)
    (h : (clampRec w b).dget? "width" = some (.int x)) :
    b.dget? "width" = some (.int x) := by
  cases b with
  | obj bfs =>
    rw [show clampRec w (.obj bfs) = .obj (clampFields w (clampStepF w bfs)) by
      simp [clampRec]] at h
    simp only [JVal.dget?] at h ⊢
    rw [clampFields_lookup?, clampStepF_lookup?_other w bfs "width" (by decide)] at h
    rw [Option.map_eq_some'] at h
    obtain ⟨v, hv, hcl⟩ := h
    obtain rfl := clampRec_int_inv w v x hcl
    exact hv
  | str s => simp [clampRec, JVal.dget?] at h
  | int n => simp [clampRec, JVal.dget?] at h
  | bool b => simp [clampRec, JVal.dget?] at h
  | null => simp [clampRec, JVal.dget?] at h
  | arr l => simp [clampRec, JVal.dget?] at h

/-- A clamped node's width after an actual clamp is exactly the bound. -/
theorem clampAttrs_obj_width (w : Int) (afs : JFields) (n : Int)
    (hv : afs.lookup? "width" = some (.int n)) (hlt : w < n) :
    (clampAttrs w (.obj afs)).dget? "width" = some (.int w) := by
  unfold clampAttrs
  simp only [JVal.dget?, hv, if_pos hlt]
  cases hh : afs.lookup? "height" with
  | none =>
    simp only [JVal.dset, JVal.dget?]
    rw [JFields.lookup?_set_self]
  | some v2 =>
    cases v2 <;>
      simp only [JVal.dset, JVal.dget?] <;>
      first
        | rw [JFields.lookup?_set_other _ "height" _ "width" (by decide),
            JFields.lookup?_set_self]
        | rw [JFields.lookup?_set_self]

/-- When the stored width does not exceed the bound (or is non-numeric),
the clamp rule leaves the attrs untouched. -/
theorem clampAttrs_eq_self (w : Int) (a : JVal)
    (h : ∀ n, a.dget? "width" = some (.int n) → ¬ w < n) : clampAttrs w a = a := by
  unfold clampAttrs
  split
  · rename_i n hn
    rw [if_neg (h n hn)]
  · rfl

/-- After clamping, no numeric width exceeds the bound. -/
theorem clampAttrs_width_bound (w : Int) (a : JVal) (x : Int)
    (h : (clampAttrs w a).dget? "width" = some (.int x)) : ¬ w < x := by
  cases a with
  | obj afs =>
    cases hv : afs.lookup? "width" with
    | none =>
      rw [clampAttrs_eq_self w _ (by simp [JVal.dget?, hv])] at h
      simp [JVal.dget?, hv] at h
    | some v =>
      cases v with
      | int n =>
        by_cases hlt : w < n
        · rw [clampAttrs_obj_width w afs n hv hlt] at h
          injection h with h
          injection h with h
          omega
        · rw [clampAttrs_eq_self w _ ?_] at h
          · simp only [JVal.dget?, hv] at h
            injection h with h
            injection h with h
            omega
          · intro n' hn'
            simp only [JVal.dget?, hv] at hn'
            injection hn' with hn'
            injection hn' with hn'
            omega
      | str s =>
        rw [clampAttrs_eq_self w _ (by simp [JVal.dget?, hv])] at h
        simp [JVal.dget?, hv] at h
      | bool b =>
        rw [clampAttrs_eq_self w _ (by simp [JVal.dget?, hv])] at h
        simp [JVal.dget?, hv] at h
      | null =>
        rw [clampAttrs_eq_self w _ (by simp [JVal.dget?, hv])] at h
        simp [JVal.dget?, hv] at h
      | obj fs2 =>
        rw [clampAttrs_eq_self w _ (by simp [JVal.dget?, hv])] at h
        simp [JVal.dget?, hv] at h
      | arr l =>
        rw [clampAttrs_eq_self w _ (by simp [JVal.dget?, hv])] at h
        simp [JVal.dget?, hv] at h
  | str s => simp [clampAttrs, JVal.dget?] at h
  | int n => simp [clampAttrs, JVal.dget?] at h
  | bool b => simp [clampAttrs, JVal.dget?] at h
  | null => simp [clampAttrs, JVal.dget?] at h
  | arr l => simp [clampAttrs, JVal.dget?] at h

theorem clampRec_obj (w : Int) (fs : JFields) :
    clampRec w (.obj fs) = .obj (clampFields w (clampStepF w fs)) := by
  simp [clampRec]

theorem clampRec_arr (w : Int) (l : JList) :
    clampRec w (.arr l) = .arr (clampList w l) := by
  simp [clampRec]

/-- The one-node clamp rule is inert on a node that has already been
through a full pass: a second pass changes nothing at this node. -/
theorem clampStepF_after_pass (w : Int) (fs : JFields) :
    clampStepF w (clampFields w (clampStepF w fs)) = clampFields w (clampStepF w fs) := by
  set gs₂ := clampFields w (clampStepF w fs) with hgs₂
  have htype : (JVal.obj gs₂).typeStr? = (JVal.obj fs).typeStr? := by
    rw [hgs₂]; exact typeStr?_clamped w fs
  by_cases hguard : (JVal.obj fs).typeStr? = some "media" ∨
      (JVal.obj fs).typeStr? = some "mediaInline" ∨ (JVal.obj fs).typeStr? = some "mediaGroup"
  · cases hattrs : fs.lookup? "attrs" with
    | none =>
      have hgs : clampStepF w fs = fs := by
        unfold clampStepF; rw [if_pos hguard, hattrs]
      have hnone : gs₂.lookup? "attrs" = none := by
        rw [hgs₂, hgs, clampFields_lookup?, hattrs]; rfl
      unfold clampStepF
      rw [if_pos (by rw [htype]; exact hguard), hnone]
    | some a =>
      have hgs : clampStepF w fs = fs.set "attrs" (clampAttrs w a) := by
        unfold clampStepF; rw [if_pos hguard, hattrs]
      have h2 : gs₂.lookup? "attrs" = some (clampRec w (clampAttrs w a)) := by
        rw [hgs₂, hgs, clampFields_lookup?, JFields.lookup?_set_self]; rfl
      unfold clampStepF
      rw [if_pos (by rw [htype]; exact hguard), h2]
      dsimp only
      rw [clampAttrs_eq_self w (clampRec w (clampAttrs w a)) (fun x hx =>
          clampAttrs_width_bound w a x
            (clampRec_width_int w (clampAttrs w a) x hx)),
        JFields.set_self _ _ _ h2]
  · unfold clampStepF
    rw [if_neg (by rw [htype]; exact hguard)]

mutual

theorem clampRec_idem (w : Int) : ∀ j, clampRec w (clampRec w j) = clampRec w j
  | .obj fs => by
    rw [clampRec_obj, clampRec_obj, clampStepF_after_pass,
      clampFields_idem w (clampStepF w fs)]
  | .arr l => by
    rw [clampRec_arr, clampRec_arr, clampList_idem w l]
  | .str s => by simp [clampRec]
  | .int n => by simp [clampRec]
  | .bool b => by simp [clampRec]
  | .null => by simp [clampRec]
termination_by j => jweightV j
decreasing_by
  all_goals simp_wf
  · rw [jweightF_clampStepF]; simp [jweightV]
  · simp [jweightV]

theorem clampFields_idem (w : Int) : ∀ fs, clampFields w (clampFields w fs) = clampFields w fs
  | .nil => by simp [clampFields]
  | .cons k v rest => by
    simp only [clampFields]
    rw [clampRec_idem w v, clampFields_idem w rest]
termination_by fs => jweightF fs
decreasing_by
  all_goals simp_wf
  all_goals simp [jweightV, jweightF]
  all_goals omega

theorem clampList_idem (w : Int) : ∀ l, clampList w (clampList w l) = clampList w l
  | .nil => by simp [clampList]
  | .cons v rest => by
    simp only [clampList]
    rw [clampRec_idem w v, clampList_idem w rest]
termination_by l => jweightL l
decreasing_by
  all_goals simp_wf
  all_goals simp [jweightV, jweightL]
  all_goals omega

end

/-- Idempotence of the whole pass. -/
theorem update_adf_image_dimensions_idem (t : JVal) (mw : Option Int) :
    update_adf_image_dimensions (update_adf_image_dimensions t mw) mw =
      update_adf_image_dimensions t mw := by
  cases mw with
  | none => rfl
  | some w =>
    by_cases hw : w = 0
    · simp [update_adf_image_dimensions, hw]
    · simp [update_adf_image_dimensions, hw, clampRec_idem]

/-!
Section: Idempotence of the id substitution (conditional)

A second application of `update_adf_media_ids` re-enters every substituted
node with the already-mapped id; it is a no-op exactly when the mapping
never moves an already-mapped id again.  We capture that side condition as
`chainFreeOk` (decidable, so witnesses can evaluate it).
-/

/-- No value of the mapping is itself remapped to something different
(e.g. the domain and range are disjoint). -/
def chainFreeOk (m : List (String × String)) : Bool :=
  m.all fun kv =>
    match smapGet? m kv.2 with
    | some u => u = kv.2
    | none => true

theorem smapGet?_mem : ∀ (m : List (String × String)) (k v : String),
    smapGet? m k = some v → (k, v) ∈ m
  | [], k, v, h => by simp [smapGet?] at h
  | (k', v') :: rest, k, v, h => by
    by_cases hk : k' = k
    · subst hk
      simp [smapGet?] at h
      simp [h]
    · simp [smapGet?, hk] at h
      exact List.mem_cons_of_mem _ (smapGet?_mem rest k v h)

theorem chainFreeOk_spec (m : List (String × String)) (hm : chainFreeOk m = true)
    (k v u : String) (h1 : smapGet? m k = some v) (h2 : smapGet? m v = some u) : u = v := by
  have hmem := smapGet?_mem m k v h1
  have := List.all_eq_true.mp hm ⟨k, v⟩ hmem
  simp only at this
  rw [h2] at this
  simpa using this

/-- Values of a dict rebuilt by `mediaIdSubstFields`. -/
def mediaIdSubstVal (m : List (String × String)) : JVal → JVal
  | .obj fs => mediaIdSubst m (.obj fs)
  | .arr l => .arr (mediaIdSubstItems m l)
  | v => v

theorem mediaIdSubst_obj (m : List (String × String)) (fs : JFields) :
    mediaIdSubst m (.obj fs) = .obj (mediaIdSubstFields m (mediaIdSubstStepF m fs)) := by
  simp [mediaIdSubst]

theorem mediaIdSubstFields_lookup? : ∀ (m : List (String × String)) (fs : JFields) (k : String),
    (mediaIdSubstFields m fs).lookup? k = (fs.lookup? k).map (mediaIdSubstVal m)
  | m, .nil, k => by simp [mediaIdSubstFields, JFields.lookup?]
  | m, .cons k0 v rest, k => by
    by_cases hk : k0 = k
    · cases v <;> simp [mediaIdSubstFields, JFields.lookup?, hk, mediaIdSubstVal, mediaIdSubst]
    · cases v <;>
        simp [mediaIdSubstFields, JFields.lookup?, hk, mediaIdSubstFields_lookup? m rest k]

theorem mediaIdSubstVal_str_inv (m : List (String × String)) (v : JVal) (s : String)
    (h : mediaIdSubstVal m v = .str s) : v = .str s := by
  cases v <;> simp_all [mediaIdSubstVal, mediaIdSubst_obj]

/-- `mediaIdSubstStep` on a dict, written out at the field-list level. -/
def mediaIdSubstStepFields (m : List (String × String)) (fs : JFields) : JFields :=
  if (JVal.obj fs).typeStr? = some "media" ∨ (JVal.obj fs).typeStr? = some "mediaInline" then
    match fs.lookup? "attrs" with
    | some (.obj afs) =>
      if afs.lookup? "collection" = some (.str "attachments") then
        match afs.lookup? "id" with
        | some (.str cur) =>
          match smapGet? m cur with
          | some fid => fs.set "attrs" (.obj (afs.set "id" (.str fid)))
          | none => fs
        | _ => fs
      else fs
    | _ => fs
  else fs

theorem mediaIdSubstStepF_eq_fields (m : List (String × String)) (fs : JFields) :
    mediaIdSubstStepF m fs = mediaIdSubstStepFields m fs := by
  unfold mediaIdSubstStepF mediaIdSubstStep mediaIdSubstStepFields
  rcases hattrs : fs.lookup? "attrs" with _ | a
  · simp [JVal.dgetD, JVal.dget?, hattrs, JFields.lookup?]
  · cases a with
    | obj afs =>
      by_cases hcoll : afs.lookup? "collection" = some (.str "attachments")
      · rcases hid : afs.lookup? "id" with _ | idv
        · simp [JVal.dgetD, JVal.dget?, hattrs, hcoll, hid]
        · cases idv with
          | str cur =>
            rcases hmap : smapGet? m cur with _ | fid
            · simp [JVal.dgetD, JVal.dget?, hattrs, hcoll, hid, hmap]
            · simp only [JVal.dgetD, JVal.dget?, JVal.dset, hattrs, hcoll, hid, hmap,
                Option.getD, and_true]
              split_ifs <;> rfl
          | int n => simp [JVal.dgetD, JVal.dget?, hattrs, hcoll, hid]
          | bool b => simp [JVal.dgetD, JVal.dget?, hattrs, hcoll, hid]
          | null => simp [JVal.dgetD, JVal.dget?, hattrs, hcoll, hid]
          | obj fs2 => simp [JVal.dgetD, JVal.dget?, hattrs, hcoll, hid]
          | arr l => simp [JVal.dgetD, JVal.dget?, hattrs, hcoll, hid]
      · simp [JVal.dgetD, JVal.dget?, hattrs, hcoll]
    | str s => simp [JVal.dgetD, JVal.dget?, hattrs]
    | int n => simp [JVal.dgetD, JVal.dget?, hattrs]
    | bool b => simp [JVal.dgetD, JVal.dget?, hattrs]
    | null => simp [JVal.dgetD, JVal.dget?, hattrs]
    | arr l => simp [JVal.dgetD, JVal.dget?, hattrs]

theorem mediaIdSubstStepF_lookup?_other (m : List (String × String)) (fs : JFields)
    (k : String) (hk : k ≠ "attrs") :
    (mediaIdSubstStepF m fs).lookup? k = fs.lookup? k := by
  rw [mediaIdSubstStepF_eq_fields]
  unfold mediaIdSubstStepFields
  split
  · split
    · split
      · split
        · split
          · rw [JFields.lookup?_set_other fs "attrs" _ k (fun h => hk h.symm)]
          · rfl
        · rfl
      · rfl
    · rfl
  · rfl

theorem typeStr?_mediaIdSubst (m : List (String × String)) (fs : JFields) :
    (JVal.obj (mediaIdSubstFields m (mediaIdSubstStepF m fs))).typeStr? =
      (JVal.obj fs).typeStr? := by
  unfold JVal.typeStr?
  have h1 : (JVal.obj (mediaIdSubstFields m (mediaIdSubstStepF m fs))).dget? "type"
      = ((fs.lookup? "type").map (mediaIdSubstVal m)) := by
    simp [JVal.dget?, mediaIdSubstFields_lookup?,
      mediaIdSubstStepF_lookup?_other m fs "type" (by decide)]
  rw [h1]
  simp [JVal.dget?]
  rcases fs.lookup? "type" with _ | v
  · rfl
  · cases v <;> simp [mediaIdSubstVal, mediaIdSubst_obj]

theorem mediaIdSubstVal_obj (m : List (String × String)) (fs : JFields) :
    mediaIdSubstVal m (.obj fs) = .obj (mediaIdSubstFields m (mediaIdSubstStepF m fs)) := by
  simp [mediaIdSubstVal, mediaIdSubst_obj]

/-- With a chain-free mapping, the substitution step is inert on a node
that has already been through a full pass. -/
theorem mediaIdSubstStepF_after_pass (m : List (String × String))
    (hm : chainFreeOk m = true) (fs : JFields) :
    mediaIdSubstStepF m (mediaIdSubstFields m (mediaIdSubstStepF m fs)) =
      mediaIdSubstFields m (mediaIdSubstStepF m fs) := by
  set gs₂ := mediaIdSubstFields m (mediaIdSubstStepF m fs) with hgs₂
  have htype : (JVal.obj gs₂).typeStr? = (JVal.obj fs).typeStr? := by
    rw [hgs₂]; exact typeStr?_mediaIdSubst m fs
  have hga : gs₂.lookup? "attrs"
      = ((mediaIdSubstStepF m fs).lookup? "attrs").map (mediaIdSubstVal m) := by
    rw [hgs₂, mediaIdSubstFields_lookup?]
  rw [mediaIdSubstStepF_eq_fields]
  unfold mediaIdSubstStepFields
  by_cases hguard : (JVal.obj fs).typeStr? = some "media" ∨
      (JVal.obj fs).typeStr? = some "mediaInline"
  · rw [if_pos (by rw [htype]; exact hguard)]
    cases hattrs : fs.lookup? "attrs" with
    | none =>
      have hstep : mediaIdSubstStepF m fs = fs := by
        rw [mediaIdSubstStepF_eq_fields]
        unfold mediaIdSubstStepFields
        rw [if_pos hguard, hattrs]
      rw [hstep, hattrs] at hga
      simp only [Option.map] at hga
      rw [hga]
    | some a =>
      cases a with
      | obj afs =>
        by_cases hcoll : afs.lookup? "collection" = some (.str "attachments")
        · cases hid : afs.lookup? "id" with
          | none =>
            have hstep : mediaIdSubstStepF m fs = fs := by
              rw [mediaIdSubstStepF_eq_fields]
              unfold mediaIdSubstStepFields
              rw [if_pos hguard, hattrs]
              dsimp only
              rw [if_pos hcoll, hid]
            rw [hstep, hattrs] at hga
            simp only [Option.map, mediaIdSubstVal_obj] at hga
            rw [hga]
            dsimp only
            rw [if_pos (by
              rw [mediaIdSubstFields_lookup?,
                mediaIdSubstStepF_lookup?_other m afs "collection" (by decide), hcoll]
              rfl)]
            rw [show (mediaIdSubstFields m (mediaIdSubstStepF m afs)).lookup? "id" = none by
              rw [mediaIdSubstFields_lookup?,
                mediaIdSubstStepF_lookup?_other m afs "id" (by decide), hid]
              rfl]
          | some idv =>
            cases idv with
            | str cur =>
              cases hmap : smapGet? m cur with
              | none =>
                have hstep : mediaIdSubstStepF m fs = fs := by
                  rw [mediaIdSubstStepF_eq_fields]
                  unfold mediaIdSubstStepFields
                  rw [if_pos hguard, hattrs]
                  dsimp only
                  rw [if_pos hcoll, hid]
                  dsimp only
                  rw [hmap]
                rw [hstep, hattrs] at hga
                simp only [Option.map, mediaIdSubstVal_obj] at hga
                rw [hga]
                dsimp only
                rw [if_pos (by
                  rw [mediaIdSubstFields_lookup?,
                    mediaIdSubstStepF_lookup?_other m afs "collection" (by decide), hcoll]
                  rfl)]
                rw [show (mediaIdSubstFields m (mediaIdSubstStepF m afs)).lookup? "id"
                    = some (.str cur) by
                  rw [mediaIdSubstFields_lookup?,
                    mediaIdSubstStepF_lookup?_other m afs "id" (by decide), hid]
                  rfl]
                dsimp only
                rw [hmap]
              | some fid =>
                have hstep : mediaIdSubstStepF m fs
                    = fs.set "attrs" (.obj (afs.set "id" (.str fid))) := by
                  rw [mediaIdSubstStepF_eq_fields]
                  unfold mediaIdSubstStepFields
                  rw [if_pos hguard, hattrs]
                  dsimp only
                  rw [if_pos hcoll, hid]
                  dsimp only
                  rw [hmap]
                rw [hstep, JFields.lookup?_set_self] at hga
                simp only [Option.map, mediaIdSubstVal_obj] at hga
                set afs' := afs.set "id" (.str fid) with hafs'
                have hcoll2 : (mediaIdSubstFields m (mediaIdSubstStepF m afs')).lookup?
                    "collection" = some (.str "attachments") := by
                  rw [mediaIdSubstFields_lookup?,
                    mediaIdSubstStepF_lookup?_other m afs' "collection" (by decide), hafs',
                    JFields.lookup?_set_other afs "id" _ "collection" (by decide), hcoll]
                  rfl
                have hid2 : (mediaIdSubstFields m (mediaIdSubstStepF m afs')).lookup? "id"
                    = some (.str fid) := by
                  rw [mediaIdSubstFields_lookup?,
                    mediaIdSubstStepF_lookup?_other m afs' "id" (by decide), hafs',
                    JFields.lookup?_set_self]
                  rfl
                rw [hga]
                dsimp only
                rw [if_pos hcoll2, hid2]
                dsimp only
                cases hmap2 : smapGet? m fid with
                | none => rfl
                | some u =>
                  obtain rfl : u = fid := chainFreeOk_spec m hm cur fid u hmap hmap2
                  dsimp only
                  rw [JFields.set_self _ _ _ hid2, JFields.set_self _ _ _ hga]
            | int n =>
              have hstep : mediaIdSubstStepF m fs = fs := by
                rw [mediaIdSubstStepF_eq_fields]
                unfold mediaIdSubstStepFields
                rw [if_pos hguard, hattrs]
                dsimp only
                rw [if_pos hcoll, hid]
              rw [hstep, hattrs] at hga
              simp only [Option.map, mediaIdSubstVal_obj] at hga
              rw [hga]
              dsimp only
              rw [if_pos (by
                rw [mediaIdSubstFields_lookup?,
                  mediaIdSubstStepF_lookup?_other m afs "collection" (by decide), hcoll]
                rfl)]
              rw [show (mediaIdSubstFields m (mediaIdSubstStepF m afs)).lookup? "id"
                  = some (.int n) by
                rw [mediaIdSubstFields_lookup?,
                  mediaIdSubstStepF_lookup?_other m afs "id" (by decide), hid]
                rfl]
            | bool b =>
              have hstep : mediaIdSubstStepF m fs = fs := by
                rw [mediaIdSubstStepF_eq_fields]
                unfold mediaIdSubstStepFields
                rw [if_pos hguard, hattrs]
                dsimp only
                rw [if_pos hcoll, hid]
              rw [hstep, hattrs] at hga
              simp only [Option.map, mediaIdSubstVal_obj] at hga
              rw [hga]
              dsimp only
              rw [if_pos (by
                rw [mediaIdSubstFields_lookup?,
                  mediaIdSubstStepF_lookup?_other m afs "collection" (by decide), hcoll]
                rfl)]
              rw [show (mediaIdSubstFields m (mediaIdSubstStepF m afs)).lookup? "id"
                  = some (.bool b) by
                rw [mediaIdSubstFields_lookup?,
                  mediaIdSubstStepF_lookup?_other m afs "id" (by decide), hid]
                rfl]
            | null =>
              have hstep : mediaIdSubstStepF m fs = fs := by
                rw [mediaIdSubstStepF_eq_fields]
                unfold mediaIdSubstStepFields
                rw [if_pos hguard, hattrs]
                dsimp only
                rw [if_pos hcoll, hid]
              rw [hstep, hattrs] at hga
              simp only [Option.map, mediaIdSubstVal_obj] at hga
              rw [hga]
              dsimp only
              rw [if_pos (by
                rw [mediaIdSubstFields_lookup?,
                  mediaIdSubstStepF_lookup?_other m afs "collection" (by decide), hcoll]
                rfl)]
              rw [show (mediaIdSubstFields m (mediaIdSubstStepF m afs)).lookup? "id"
                  = some .null by
                rw [mediaIdSubstFields_lookup?,
                  mediaIdSubstStepF_lookup?_other m afs "id" (by decide), hid]
                rfl]
            | obj fs2 =>
              have hstep : mediaIdSubstStepF m fs = fs := by
                rw [mediaIdSubstStepF_eq_fields]
                unfold mediaIdSubstStepFields
                rw [if_pos hguard, hattrs]
                dsimp only
                rw [if_pos hcoll, hid]
              rw [hstep, hattrs] at hga
              simp only [Option.map, mediaIdSubstVal_obj] at hga
              rw [hga]
              dsimp only
              rw [if_pos (by
                rw [mediaIdSubstFields_lookup?,
                  mediaIdSubstStepF_lookup?_other m afs "collection" (by decide), hcoll]
                rfl)]
              rw [show (mediaIdSubstFields m (mediaIdSubstStepF m afs)).lookup? "id"
                  = some (.obj (mediaIdSubstFields m (mediaIdSubstStepF m fs2))) by
                rw [mediaIdSubstFields_lookup?,
                  mediaIdSubstStepF_lookup?_other m afs "id" (by decide), hid]
                simp [Option.map, mediaIdSubstVal_obj]]
            | arr l =>
              have hstep : mediaIdSubstStepF m fs = fs := by
                rw [mediaIdSubstStepF_eq_fields]
                unfold mediaIdSubstStepFields
                rw [if_pos hguard, hattrs]
                dsimp only
                rw [if_pos hcoll, hid]
              rw [hstep, hattrs] at hga
              simp only [Option.map, mediaIdSubstVal_obj] at hga
              rw [hga]
              dsimp only
              rw [if_pos (by
                rw [mediaIdSubstFields_lookup?,
                  mediaIdSubstStepF_lookup?_other m afs "collection" (by decide), hcoll]
                rfl)]
              rw [show (mediaIdSubstFields m (mediaIdSubstStepF m afs)).lookup? "id"
                  = some (.arr (mediaIdSubstItems m l)) by
                rw [mediaIdSubstFields_lookup?,
                  mediaIdSubstStepF_lookup?_other m afs "id" (by decide), hid]
                rfl]
        · have hstep : mediaIdSubstStepF m fs = fs := by
            rw [mediaIdSubstStepF_eq_fields]
            unfold mediaIdSubstStepFields
            rw [if_pos hguard, hattrs]
            dsimp only
            rw [if_neg hcoll]
          rw [hstep, hattrs] at hga
          simp only [Option.map, mediaIdSubstVal_obj] at hga
          have hcoll2 : ¬ (mediaIdSubstFields m (mediaIdSubstStepF m afs)).lookup?
              "collection" = some (.str "attachments") := by
            rw [mediaIdSubstFields_lookup?,
              mediaIdSubstStepF_lookup?_other m afs "collection" (by decide)]
            intro hc
            obtain ⟨v, hv, hsv⟩ := Option.map_eq_some'.mp hc
            obtain rfl := mediaIdSubstVal_str_inv m v _ hsv
            exact hcoll hv
          rw [hga]
          dsimp only
          rw [if_neg hcoll2]
      | str s =>
        have hstep : mediaIdSubstStepF m fs = fs := by
          rw [mediaIdSubstStepF_eq_fields]
          unfold mediaIdSubstStepFields
          rw [if_pos hguard, hattrs]
        rw [hstep, hattrs] at hga
        simp only [Option.map, mediaIdSubstVal] at hga
        rw [hga]
      | int n =>
        have hstep : mediaIdSubstStepF m fs = fs := by
          rw [mediaIdSubstStepF_eq_fields]
          unfold mediaIdSubstStepFields
          rw [if_pos hguard, hattrs]
        rw [hstep, hattrs] at hga
        simp only [Option.map, mediaIdSubstVal] at hga
        rw [hga]
      | bool b =>
        have hstep : mediaIdSubstStepF m fs = fs := by
          rw [mediaIdSubstStepF_eq_fields]
          unfold mediaIdSubstStepFields
          rw [if_pos hguard, hattrs]
        rw [hstep, hattrs] at hga
        simp only [Option.map, mediaIdSubstVal] at hga
        rw [hga]
      | null =>
        have hstep : mediaIdSubstStepF m fs = fs := by
          rw [mediaIdSubstStepF_eq_fields]
          unfold mediaIdSubstStepFields
          rw [if_pos hguard, hattrs]
        rw [hstep, hattrs] at hga
        simp only [Option.map, mediaIdSubstVal] at hga
        rw [hga]
      | arr l =>
        have hstep : mediaIdSubstStepF m fs = fs := by
          rw [mediaIdSubstStepF_eq_fields]
          unfold mediaIdSubstStepFields
          rw [if_pos hguard, hattrs]
        rw [hstep, hattrs] at hga
        simp only [Option.map, mediaIdSubstVal] at hga
        rw [hga]
  · rw [if_neg (by rw [htype]; exact hguard)]

theorem mediaIdSubstFields_cons (m : List (String × String)) (k : String) (v : JVal)
    (rest : JFields) :
    mediaIdSubstFields m (.cons k v rest)
      = .cons k (mediaIdSubstVal m v) (mediaIdSubstFields m rest) := by
  cases v <;> simp [mediaIdSubstFields, mediaIdSubstVal]

/-- Per-item transformation of `mediaIdSubstItems`: only dict items are
recursed into (`isinstance(item, dict)`); lists inside lists stay as-is. -/
def mediaIdSubstItemVal (m : List (String × String)) : JVal → JVal
  | .obj fs => mediaIdSubst m (.obj fs)
  | v => v

theorem mediaIdSubstItems_cons (m : List (String × String)) (v : JVal) (rest : JList) :
    mediaIdSubstItems m (.cons v rest)
      = .cons (mediaIdSubstItemVal m v) (mediaIdSubstItems m rest) := by
  cases v <;> simp [mediaIdSubstItems, mediaIdSubstItemVal]

mutual

theorem mediaIdSubstVal_idem (m : List (String × String)) (hm : chainFreeOk m = true) :
    ∀ v, mediaIdSubstVal m (mediaIdSubstVal m v) = mediaIdSubstVal m v
  | .obj fs => by
    rw [mediaIdSubstVal_obj, mediaIdSubstVal_obj, mediaIdSubstStepF_after_pass m hm,
      mediaIdSubstFields_idem m hm (mediaIdSubstStepF m fs)]
  | .arr l => by
    simp only [mediaIdSubstVal]
    rw [mediaIdSubstItems_idem m hm l]
  | .str s => by simp [mediaIdSubstVal]
  | .int n => by simp [mediaIdSubstVal]
  | .bool b => by simp [mediaIdSubstVal]
  | .null => by simp [mediaIdSubstVal]
termination_by v => jweightV v
decreasing_by
  all_goals simp_wf
  · rw [jweightF_mediaIdSubstStepF]
    simp [jweightV]
  · simp [jweightV]

theorem mediaIdSubstFields_idem (m : List (String × String)) (hm : chainFreeOk m = true) :
    ∀ fs, mediaIdSubstFields m (mediaIdSubstFields m fs) = mediaIdSubstFields m fs
  | .nil => by simp [mediaIdSubstFields]
  | .cons k v rest => by
    rw [mediaIdSubstFields_cons, mediaIdSubstFields_cons, mediaIdSubstVal_idem m hm v,
      mediaIdSubstFields_idem m hm rest]
termination_by fs => jweightF fs
decreasing_by
  all_goals simp_wf
  all_goals simp [jweightV, jweightF]
  all_goals omega

theorem mediaIdSubstItems_idem (m : List (String × String)) (hm : chainFreeOk m = true) :
    ∀ l, mediaIdSubstItems m (mediaIdSubstItems m l) = mediaIdSubstItems m l
  | .nil => by simp [mediaIdSubstItems]
  | .cons v rest => by
    rw [mediaIdSubstItems_cons, mediaIdSubstItems_cons, mediaIdSubstItemVal_idem m hm v,
      mediaIdSubstItems_idem m hm rest]
termination_by l => jweightL l
decreasing_by
  all_goals simp_wf
  all_goals simp [jweightV, jweightL]
  all_goals omega

theorem mediaIdSubstItemVal_idem (m : List (String × String)) (hm : chainFreeOk m = true) :
    ∀ v, mediaIdSubstItemVal m (mediaIdSubstItemVal m v) = mediaIdSubstItemVal m v
  | .obj fs => by
    simp only [mediaIdSubstItemVal, mediaIdSubst_obj]
    rw [mediaIdSubstStepF_after_pass m hm,
      mediaIdSubstFields_idem m hm (mediaIdSubstStepF m fs)]
  | .arr l => by simp [mediaIdSubstItemVal]
  | .str s => by simp [mediaIdSubstItemVal]
  | .int n => by simp [mediaIdSubstItemVal]
  | .bool b => by simp [mediaIdSubstItemVal]
  | .null => by simp [mediaIdSubstItemVal]
termination_by v => jweightV v
decreasing_by
  all_goals simp_wf
  rw [jweightF_mediaIdSubstStepF]
  simp [jweightV]

end

theorem mediaIdSubst_idem (m : List (String × String)) (hm : chainFreeOk m = true)
    (j : JVal) : mediaIdSubst m (mediaIdSubst m j) = mediaIdSubst m j := by
  cases j with
  | obj fs =>
    have h := mediaIdSubstVal_idem m hm (.obj fs)
    simp only [mediaIdSubstVal_obj] at h
    rw [mediaIdSubst_obj, mediaIdSubst_obj]
    exact h
  | str s => simp [mediaIdSubst]
  | int n => simp [mediaIdSubst]
  | bool b => simp [mediaIdSubst]
  | null => simp [mediaIdSubst]
  | arr l => simp [mediaIdSubst]

def c4Tree : JVal :=
  .obj (.cons "type" (.str "media")
    (.cons "attrs" (.obj (.cons "collection" (.str "attachments")
      (.cons "id" (.str "a") .nil))) .nil))
def c4Map : List (String × String) := [("a", "b"), ("b", "c")]

def c3Heap : Heap :=
  [(0, .dict [("type", .scalar (.s "media")), ("attrs", .ref 1)]),
   (1, .dict [("collection", .scalar (.s "attachments")), ("id", .scalar (.s "img.png"))])]

def c3Map : List (String × String) := [("img.png", "123")]


/-- Concrete §8 example documents: a doc holding one media node. -/
def mkDoc (attrs : JFields) : JVal :=
  .obj (.cons "version" (.int 1) (.cons "type" (.str "doc")
    (.cons "content" (.arr (.cons
      (.obj (.cons "type" (.str "media") (.cons "attrs" (.obj attrs) .nil)))
      .nil)) .nil)))

def attrsWide : JFields :=
  .cons "width" (.int 1200) (.cons "height" (.int 600) (.cons "id" (.str "t.png") .nil))

def attrsWideClamped : JFields :=
  .cons "width" (.int 800) (.cons "height" (.int 400) (.cons "id" (.str "t.png") .nil))

def attrsNarrow : JFields :=
  .cons "width" (.int 400) (.cons "height" (.int 300) (.cons "id" (.str "t.png") .nil))

def attrsAuto : JFields :=
  .cons "width" (.str "auto") (.cons "height" (.int 600) (.cons "id" (.str "t.png") .nil))

/-- C1: the image-dimension clamping pass leaves the tree unchanged when
`maxWidth` is zero or absent; a numeric width that does not exceed
`maxWidth`, or a non-numeric width such as `"auto"`, keeps both attributes
unchanged; a numeric width exceeding `maxWidth` is set to `maxWidth` with
the height recomputed as `round(maxWidth * height / width)` when numeric;
and on the spec's example document the pass rewrites 1200×600 to 800×400
under `maxWidth = 800`, preserving the aspect ratio. -/
theorem claim_C1_clamp_widths :
    (∀ t, update_adf_image_dimensions t none = t) ∧
    (∀ t, update_adf_image_dimensions t (some 0) = t) ∧
    (∀ w a n, a.dget? "width" = some (.int n) → n ≤ w → clampAttrs w a = a) ∧
    (∀ w a, (∀ n, a.dget? "width" ≠ some (.int n)) → clampAttrs w a = a) ∧
    (∀ w a n ht, a.dget? "width" = some (.int n) → w < n →
      a.dget? "height" = some (.int ht) →
      clampAttrs w a = (a.dset "width" (.int w)).dset "height" (.int (specRound (w * ht) n))) ∧
    update_adf_image_dimensions (mkDoc attrsWide) (some 800) = mkDoc attrsWideClamped ∧
    update_adf_image_dimensions (mkDoc attrsNarrow) (some 800) = mkDoc attrsNarrow ∧
    update_adf_image_dimensions (mkDoc attrsAuto) (some 800) = mkDoc attrsAuto := by
  refine ⟨fun t => rfl, fun t => by simp [update_adf_image_dimensions], ?_, ?_, ?_, ?_, ?_, ?_⟩
  · intro w a n hw hle
    exact clampAttrs_eq_self w a (fun x hx => by
      rw [hw] at hx
      injection hx with hx
      injection hx with hx
      omega)
  · intro w a hno
    exact clampAttrs_eq_self w a (fun x hx => absurd hx (hno x))
  · intro w a n ht hw hlt hh
    unfold clampAttrs
    rw [hw]
    dsimp only
    rw [if_pos hlt, hh]
  · simp [update_adf_image_dimensions, mkDoc, attrsWide, attrsWideClamped, clampRec,
      clampFields, clampList, clampStepF, clampAttrs, JVal.typeStr?, JVal.dget?, JVal.dset,
      JFields.lookup?, JFields.set, specRound]
    decide
  · simp [update_adf_image_dimensions, mkDoc, attrsNarrow, clampRec,
      clampFields, clampList, clampStepF, clampAttrs, JVal.typeStr?, JVal.dget?, JVal.dset,
      JFields.lookup?, JFields.set]
  · simp [update_adf_image_dimensions, mkDoc, attrsAuto, clampRec,
      clampFields, clampList, clampStepF, clampAttrs, JVal.typeStr?, JVal.dget?, JVal.dset,
      JFields.lookup?, JFields.set]

/-- Witness for C1 at concrete inputs: width 400 ≤ 800 unchanged; "auto"
unchanged; 1200×600 clamped to 800 with height 400. -/
theorem claim_C1_clamp_widths_witness :
    clampAttrs 800 (.obj attrsNarrow) = .obj attrsNarrow ∧
    clampAttrs 800 (.obj attrsAuto) = .obj attrsAuto ∧
    clampAttrs 800 (.obj attrsWide)
      = (((JVal.obj attrsWide).dset "width" (.int 800)).dset "height"
          (.int (specRound (800 * 600) 1200))) :=
  ⟨claim_C1_clamp_widths.2.2.1 800 (.obj attrsNarrow) 400 (by decide) (by decide),
   claim_C1_clamp_widths.2.2.2.1 800 (.obj attrsAuto)
     (fun n hn => by simp [attrsAuto, JVal.dget?, JFields.lookup?] at hn),
   claim_C1_clamp_widths.2.2.2.2.1 800 (.obj attrsWide) 1200 600 (by decide) (by decide)
     (by decide)⟩

/-- C3: `update_adf_media_ids` (adf_resources.py) makes only a *shallow*
copy and assigns into the nested `attrs` dict, which is shared with the
caller's tree: after the call the caller's tree is no longer value-equal to
what it was before — its `attrs.id` has been rewritten. -/
theorem claim_C3_caller_tree_mutated :
    readBack (updateAdfMediaIdsHeap 5 c3Heap (.ref 0) c3Map).1 5 (.ref 0) ≠
      readBack c3Heap 5 (.ref 0) ∧
    readBack (updateAdfMediaIdsHeap 5 c3Heap (.ref 0) c3Map).1 5 (.ref 0) =
      .obj (.cons "type" (.str "media")
        (.cons "attrs" (.obj (.cons "collection" (.str "attachments")
          (.cons "id" (.str "123") .nil))) .nil)) := by
  have h1 : readBack c3Heap 5 (.ref 0) =
      .obj (.cons "type" (.str "media")
        (.cons "attrs" (.obj (.cons "collection" (.str "attachments")
          (.cons "id" (.str "img.png") .nil))) .nil)) := by
    simp [c3Heap, readBack, readBackFields, readBackList, heapGet?]
  have h2 : (updateAdfMediaIdsHeap 5 c3Heap (.ref 0) c3Map).1 =
      [(2, .dict [("type", .scalar (.s "media")), ("attrs", .ref 1)]),
       (0, .dict [("type", .scalar (.s "media")), ("attrs", .ref 1)]),
       (1, .dict [("collection", .scalar (.s "attachments")),
                  ("id", .scalar (.s "123"))])] := by
    simp [updateAdfMediaIdsHeap, c3Heap, c3Map, pIsTruthy, heapGet?, freshAddr, procRec,
      procFields, procItems, pdictGet?, pdictSet, heapSet, smapGet?]
  rw [h2, h1]
  constructor
  · simp [readBack, readBackFields, readBackList, heapGet?]
  · simp [readBack, readBackFields, readBackList, heapGet?]

/-- C4 as stated is false: with the chained mapping {"a"→"b", "b"→"c"} a
second application moves the already-substituted id again. -/
theorem claim_C4_counterexample :
    update_adf_media_ids (update_adf_media_ids c4Tree c4Map) c4Map ≠
      update_adf_media_ids c4Tree c4Map := by
  have h1 : update_adf_media_ids c4Tree c4Map =
      .obj (.cons "type" (.str "media")
        (.cons "attrs" (.obj (.cons "collection" (.str "attachments")
          (.cons "id" (.str "b") .nil))) .nil)) := by
    simp [update_adf_media_ids, c4Tree, c4Map, JVal.isTruthy, mediaIdSubst, mediaIdSubstFields,
      mediaIdSubstItems, mediaIdSubstStepF, mediaIdSubstStep, JVal.typeStr?, JVal.dget?,
      JVal.dgetD, JVal.dset, JFields.lookup?, JFields.set, smapGet?]
  rw [h1]
  have h2 : update_adf_media_ids
      (JVal.obj (.cons "type" (.str "media")
        (.cons "attrs" (.obj (.cons "collection" (.str "attachments")
          (.cons "id" (.str "b") .nil))) .nil))) c4Map =
      .obj (.cons "type" (.str "media")
        (.cons "attrs" (.obj (.cons "collection" (.str "attachments")
          (.cons "id" (.str "c") .nil))) .nil)) := by
    simp [update_adf_media_ids, c4Map, JVal.isTruthy, mediaIdSubst, mediaIdSubstFields,
      mediaIdSubstItems, mediaIdSubstStepF, mediaIdSubstStep, JVal.typeStr?, JVal.dget?,
      JVal.dgetD, JVal.dset, JFields.lookup?, JFields.set, smapGet?]
  rw [h2]
  decide

theorem mediaIdSubstStepF_ne_nil (m : List (String × String)) (k : String) (v : JVal)
    (rest : JFields) : mediaIdSubstStepF m (.cons k v rest) ≠ .nil := by
  rw [mediaIdSubstStepF_eq_fields]
  unfold mediaIdSubstStepFields
  split
  · split
    · split
      · split
        · split
          · exact JFields.set_ne_nil _ _ _
          · simp
        · simp
      · simp
    · simp
  · simp

theorem mediaIdSubstFields_ne_nil (m : List (String × String)) (fs : JFields)
    (h : fs ≠ .nil) : mediaIdSubstFields m fs ≠ .nil := by
  cases fs with
  | nil => exact absurd rfl h
  | cons k v rest =>
    rw [mediaIdSubstFields_cons]
    simp

/-- The substitution pass does not change Python truthiness of the tree. -/
theorem mediaIdSubst_isTruthy (m : List (String × String)) (t : JVal) :
    (mediaIdSubst m t).isTruthy = t.isTruthy := by
  cases t with
  | obj fs =>
    cases fs with
    | nil =>
      simp [mediaIdSubst_obj, mediaIdSubstStepF_eq_fields, mediaIdSubstStepFields,
        JVal.typeStr?, JVal.dget?, JFields.lookup?, mediaIdSubstFields, JVal.isTruthy]
    | cons k v rest =>
      rw [mediaIdSubst_obj]
      have h2 : mediaIdSubstFields m (mediaIdSubstStepF m (.cons k v rest)) ≠ .nil :=
        mediaIdSubstFields_ne_nil m _ (mediaIdSubstStepF_ne_nil m k v rest)
      simp [JVal.isTruthy, h2]
  | str s => simp [mediaIdSubst]
  | int n => simp [mediaIdSubst]
  | bool b => simp [mediaIdSubst]
  | null => simp [mediaIdSubst]
  | arr l => simp [mediaIdSubst]

/-- C4 amended: the clamping pass is idempotent for every tree and every
max width; the id-substitution pass applied twice equals one application
provided the mapping never remaps one of its own values to something
different (e.g. domain and range disjoint). -/
theorem claim_C4_amended :
    (∀ t mw, update_adf_image_dimensions (update_adf_image_dimensions t mw) mw
        = update_adf_image_dimensions t mw) ∧
    (∀ t m, chainFreeOk m = true →
        update_adf_media_ids (update_adf_media_ids t m) m = update_adf_media_ids t m) := by
  constructor
  · exact update_adf_image_dimensions_idem
  · intro t m hm
    unfold update_adf_media_ids
    by_cases hg : (!t.isTruthy ∨ m = [])
    · rw [if_pos hg, if_pos hg]
    · rw [if_neg hg, mediaIdSubst_isTruthy]
      rw [if_neg hg, mediaIdSubst_idem m hm t]

/-- Witness for C4 at concrete inputs. -/
theorem claim_C4_amended_witness :
    update_adf_image_dimensions (update_adf_image_dimensions (mkDoc attrsWide) (some 800))
        (some 800) = update_adf_image_dimensions (mkDoc attrsWide) (some 800) ∧
    update_adf_media_ids (update_adf_media_ids c4Tree [("a", "b")]) [("a", "b")]
        = update_adf_media_ids c4Tree [("a", "b")] :=
  ⟨claim_C4_amended.1 (mkDoc attrsWide) (some 800),
   claim_C4_amended.2 c4Tree [("a", "b")] (by decide)⟩

/-!
Section: Python string primitives used by the renderer

All of these are implemented over `List Char` so that concrete instances
evaluate inside the kernel (`decide`); they model the Python `str` methods
the scripts use.
-/

/-- Python `sub in s` (substring containment). -/
def listInfix (p : List Char) : List Char → Bool
  | [] => p.isEmpty
  | c :: rest => p.isPrefixOf (c :: rest) || listInfix p rest

def pyInStr (sub s : String) : Bool :=
  listInfix sub.toList s.toList

/-- Python `s.startswith(pre)`. -/
def pyStartsWith (s pre : String) : Bool :=
  pre.toList.isPrefixOf s.toList

/-- Python `s.endswith(suf)`. -/
def pyEndsWith (s suf : String) : Bool :=
  suf.toList.reverse.isPrefixOf s.toList.reverse

/-- Python `s * n` for a string and an int (empty for n ≤ 0). -/
def pyRepeat (s : String) (n : Int) : String :=
  String.join (List.replicate n.toNat s)

/-- Python `str.strip()` (both ends, whitespace). -/
def pyTrim (s : String) : String :=
  String.mk (((s.toList.dropWhile Char.isWhitespace).reverse.dropWhile
    Char.isWhitespace).reverse)

/-- Python `str.rstrip()` (trailing whitespace removed). -/
def pyRstrip (s : String) : String :=
  String.mk (s.toList.reverse.dropWhile Char.isWhitespace).reverse

/-- Python `str.strip(c)` for a single strip character (both ends, repeated). -/
def pyStripChar (c : Char) (s : String) : String :=
  String.mk (((s.toList.dropWhile (· = c)).reverse.dropWhile (· = c)).reverse)

/-- Python `s.split(sep)` for a non-empty separator, over char lists.  The
`Nat` argument is recursion fuel (one unit per consumed character, so
`l.length` always suffices); it keeps the recursion structural so that
concrete instances reduce in the kernel. -/
def pySplitAux (sep : List Char) : Nat → List Char → List Char → List (List Char)
  | _, [], acc => [acc.reverse]
  | 0, l, acc => [(acc.reverse ++ l)]
  | fuel + 1, c :: rest, acc =>
    if sep.isPrefixOf (c :: rest) then
      acc.reverse :: pySplitAux sep fuel (List.drop (sep.length - 1) rest) []
    else
      pySplitAux sep fuel rest (c :: acc)

def pySplit (s sep : String) : List String :=
  (pySplitAux sep.toList s.toList.length s.toList []).map String.mk

/-- Python `s.replace(old, new)` for a non-empty `old`: replace every
non-overlapping occurrence left to right.  Fuel as in `pySplitAux`. -/
def pyReplaceAux (old new : List Char) : Nat → List Char → List Char
  | _, [] => []
  | 0, l => l
  | fuel + 1, c :: rest =>
    if old.isPrefixOf (c :: rest) then
      new ++ pyReplaceAux old new fuel (List.drop (old.length - 1) rest)
    else
      c :: pyReplaceAux old new fuel rest

def pyReplace (s old new : String) : String :=
  if old = "" then s else String.mk (pyReplaceAux old.toList new.toList s.toList.length s.toList)

/-- Python `f"{v}"` of a JSON value (dict/list reprs are approximated; the
scripts only format scalars). -/
def pyStr : JVal → String
  | .str s => s
  | .int n => toString n
  | .bool b => if b then "True" else "False"
  | .null => "None"
  | .obj _ => "{...}"
  | .arr _ => "[...]"

/-- Python `os.path.dirname`: everything before the last `/` (empty when
there is no `/`). -/
def pyDirname (p : String) : String :=
  match (pySplit p "/").reverse with
  | [] => ""
  | [_] => ""
  | _ :: rest => String.intercalate "/" rest.reverse

/-- Python `os.path.relpath(target, start)`: strip the common prefix of the
`/`-separated components, then one `..` per remaining start component. -/
def pyRelpath (target start : String) : String :=
  let t := (pySplit target "/").filter (· ≠ "")
  let s := (pySplit start "/").filter (· ≠ "")
  let rec strip : List String → List String → List String × List String
    | a :: as, b :: bs => if a = b then strip as bs else (a :: as, b :: bs)
    | as, bs => (as, bs)
  let (tr, sr) := strip t s
  let parts := List.replicate sr.length ".." ++ tr
  if parts.isEmpty then "." else String.intercalate "/" parts

example : pyInStr "#" "a#b" = true := by decide
example : pyInStr "x" "a#b" = false := by decide
example : pyInStr "" "ab" = true := by decide
example : pyStartsWith "#db" "#" = true := by decide
example : pyEndsWith "ab*" "*" = true := by decide
example : pyRepeat "=" 3 = "===" := by decide
example : pyRepeat "=" (-1) = "" := by decide
example : pyRstrip "ab  " = "ab" := by decide
example : pyTrim " a b " = "a b" := by decide
example : pyStripChar '*' "**a*b**" = "a*b" := by decide
example : pySplit "a#b#c" "#" = ["a", "b", "c"] := by decide
example : pySplit "ab" "#" = ["ab"] := by decide
example : pyReplace "a|b" "|" "\\|" = "a\\|b" := by decide
example : pyReplace "a\\\\|b" "\\\\|" "\\|" = "a\\|b" := by decide
example : pyDirname "/a/b/c.adoc" = "/a/b" := by decide
example : pyRelpath "/a/b/x.adoc" "/a/c" = "../b/x.adoc" := by decide

/-!
Section: Renderer data model

The renderer functions of adf_resources.py take a mutable `context` dict.
We model it as a record threaded through every call.  Fields that the
scripts only read through `context.get(key, default)` are stored plainly
(absence ≡ the default); fields whose *presence* is observable — `anchors`
and `mention_username_to_id` (created lazily via `setdefault`, which
interacts with `dict.copy()` sharing), `base_url` (a missing value makes
`x in href` raise), `list_depth`/`in_bullet_list` (set, decremented and
popped), `doc_content`, `next_node_to_skip` (popped) — are `Option`s.
`jira_env` models `os.environ.get("JIRA_BASE_URL")`.
-/

/-- A Python exception escaping a renderer function. -/
inductive PyErr where
  | typeError (msg : String)
  | keyError (msg : String)
  | attributeError (msg : String)
  | outOfFuel
  deriving Repr, DecidableEq

instance {e a : Type} [DecidableEq e] [DecidableEq a] : DecidableEq (Except e a)
  | .ok x, .ok y => decidable_of_iff (x = y) (by simp)
  | .ok _, .error _ => isFalse (by simp)
  | .error _, .ok _ => isFalse (by simp)
  | .error x, .error y => decidable_of_iff (x = y) (by simp)

/-- The injected Confluence/Jira client: only its two title lookups are
used by the renderer (spec §6 "title resolver"). -/
structure Client where
  getConfluencePageTitle : String → Option String
  getJiraTicketTitle : String → Option String

structure Ctx where
  file_id_to_filename : List (String × String) := []
  media_files : List JVal := []
  anchors : Option (List JVal) := none
  base_url : Option String := none
  page_mapping : List (String × JVal) := []
  current_file_path : String := ""
  in_table_cell : Bool := false
  list_depth : Option Int := none
  in_bullet_list : Option Bool := none
  doc_content : Option JVal := none
  next_node_to_skip : Option JVal := none
  mention_username_to_id : Option (List (String × String)) := none
  confluence_client : Option Client := none
  list_item_indent : Option String := none
  jira_env : Option String := none

/-- `context.get("anchors", {}).get(a)` is truthy iff `a` was registered. -/
def Ctx.anchorRegistered (ctx : Ctx) (a : JVal) : Bool :=
  (ctx.anchors.getD []).any (fun x => decide (x = a))

/-- `context.setdefault("anchors", {})[a] = True`. -/
def Ctx.registerAnchor (ctx : Ctx) (a : JVal) : Ctx :=
  { ctx with anchors := some ((ctx.anchors.getD []) ++ [a]) }

/-- Python dict assignment on a `str → str` dict. -/
def smapSet (m : List (String × String)) (k v : String) : List (String × String) :=
  match m with
  | [] => [(k, v)]
  | (k', v') :: rest => if k' = k then (k, v) :: rest else (k', v') :: smapSet rest k v

/-- `context.setdefault("mention_username_to_id", {})[u] = uid`. -/
def Ctx.registerMention (ctx : Ctx) (u uid : String) : Ctx :=
  let m := smapSet (ctx.mention_username_to_id.getD []) u uid
  { ctx with mention_username_to_id := some m }

/-- The sub-context boundary of `context.copy()` (table cells, list items):
rebinding of scalar entries in the copy is invisible to the outer dict, but
the `anchors` / `mention_username_to_id` dicts are shared *when they already
exist at copy time* — `setdefault` then mutates the shared dict.  When the
outer dict has no such entry yet, `setdefault` creates the dict in the copy
only and the outer context never sees it. -/
def Ctx.mergeShared (outer inner : Ctx) : Ctx :=
  let a := if outer.anchors.isSome then inner.anchors else outer.anchors
  let mm := if outer.mention_username_to_id.isSome then inner.mention_username_to_id
    else outer.mention_username_to_id
  { outer with anchors := a, mention_username_to_id := mm }

/-!
Section: URL and regex helpers (`extract_page_id_from_url`, Jira links)
-/

/-- The query component of a URL (`urlparse(url).query`): after the first
`?`, up to a `#`. -/
def urlQuery (u : String) : String :=
  match pySplit u "?" with
  | _ :: q :: _ => match pySplit q "#" with
    | q' :: _ => q'
    | [] => ""
  | _ => ""

/-- The path component of a URL (`urlparse(url).path`): drop fragment and
query, then drop `scheme://netloc`. -/
def urlPath (u : String) : String :=
  let noFrag := match pySplit u "#" with
    | p :: _ => p
    | [] => ""
  let noQuery := match pySplit noFrag "?" with
    | p :: _ => p
    | [] => ""
  match pySplit noQuery "://" with
  | _ :: afterScheme :: _ =>
    match (pySplit afterScheme "/") with
    | _ :: pathParts => if pathParts.isEmpty then "" else "/" ++ String.intercalate "/" pathParts
    | [] => ""
  | _ => noQuery

/-- `parse_qs(query)` restricted to the first `pageId` value (parse_qs
drops blank values; percent-decoding is not modelled — the scripts never
pass encoded page ids). -/
def queryPageId? (query : String) : Option String :=
  ((pySplit query "&").filterMap (fun comp =>
    match pySplit comp "=" with
    | k :: v :: _ => if k = "pageId" ∧ v ≠ "" then some v else none
    | _ => none)).head?

/-- Greedy digit run. -/
def takeDigits (l : List Char) : List Char :=
  l.takeWhile Char.isDigit

/-- `re.search(r"/pages/(\d+)/?", path)`: leftmost occurrence of
`/pages/` followed by at least one digit; returns the digit group. -/
def findPagesId (s : String) : Option String :=
  go s.toList
where
  go : List Char → Option String
    | [] => none
    | c :: rest =>
      if "/pages/".toList.isPrefixOf (c :: rest) then
        let ds := takeDigits ((c :: rest).drop 7)
        if ds.isEmpty then go rest else some (String.mk ds)
      else go rest

/-- `re.search(r"/pages/viewpage.action/(\d+)/?", path)` (the `.` taken
literally, as in every URL the scripts handle). -/
def findViewpageId (s : String) : Option String :=
  go s.toList
where
  go : List Char → Option String
    | [] => none
    | c :: rest =>
      if "/pages/viewpage.action/".toList.isPrefixOf (c :: rest) then
        let ds := takeDigits ((c :: rest).drop 23)
        if ds.isEmpty then go rest else some (String.mk ds)
      else go rest

/-- `extract_page_id_from_url` (adf_resources.py lines 675–708). -/
def extract_page_id_from_url (url : String) : Option String :=
  if url = "" then none
  else
    match queryPageId? (urlQuery url) with
    | some pid => some pid
    | none =>
      match findPagesId (urlPath url) with
      | some pid => some pid
      | none => findViewpageId (urlPath url)

/-- `re.search(r"/browse/([A-Z]+-\d+)", href)`: the issue key after the
leftmost matching `/browse/`. -/
def findBrowseIssueKey (s : String) : Option String :=
  go s.toList
where
  parseKey (l : List Char) : Option String :=
    let ups := l.takeWhile Char.isUpper
    if ups.isEmpty then none
    else
      match l.drop ups.length with
      | '-' :: r2 =>
        let ds := takeDigits r2
        if ds.isEmpty then none else some (String.mk (ups ++ '-' :: ds))
      | _ => none
  go : List Char → Option String
    | [] => none
    | c :: rest =>
      if "/browse/".toList.isPrefixOf (c :: rest) then
        match parseKey ((c :: rest).drop 8) with
        | some k => some k
        | none => go rest
      else go rest

example : extract_page_id_from_url "https://c.example.com/pages/viewpage.action?pageId=123456" = some "123456" := by decide
example : extract_page_id_from_url "https://c.example.com/wiki/spaces/T/pages/99/Title" = some "99" := by decide
example : findBrowseIssueKey "https://jira.example.com/browse/TEST-123" = some "TEST-123" := by decide
example : findBrowseIssueKey "https://jira.example.com/x" = none := by decide

/-!
Section: Inline text renderer (`get_node_text_content`, lines 386–478)
-/

/-- Python `href[1:]`. -/
def pyDrop1 (s : String) : String :=
  String.mk (s.toList.drop 1)

/-- Entry lookup in `context.get("page_mapping", {})`. -/
def Ctx.pageEntry? (ctx : Ctx) (pid : String) : Option JVal :=
  match ctx.page_mapping.lookup pid with
  | some e => some e
  | none => none

/-- The final "Apply link formatting" block of `get_node_text_content`
(lines 458–467): nest the link inside a strong/emphasis wrapper when the
text is wholly wrapped in one. -/
def applyLinkHref (href text : String) : String :=
  if pyStartsWith text "*" ∧ pyEndsWith text "*" then
    "*link:" ++ href ++ "[" ++ pyStripChar '*' text ++ "]*"
  else if pyStartsWith text "_" ∧ pyEndsWith text "_" then
    "_link:" ++ href ++ "[" ++ pyStripChar '_' text ++ "]_"
  else
    "link:" ++ href ++ "[" ++ text ++ "]"

/-- The tail of the link-mark branch: the `JIRA_BASE_URL` check (lines
432–444) followed by the unconditional `link_href = href`.  `lh` is the
value `link_href` has when control reaches the check. -/
def gntcJiraCheck (ctx : Ctx) (href text : String) (lh : Option String) :
    String × Option String :=
  let jiraBase := ctx.jira_env.getD "https://jira.example.com"
  if href ≠ "" ∧ pyInStr jiraBase href then
    match findBrowseIssueKey href with
    | some key => ("jira:" ++ key ++ "[]", lh)
    | none => (text, some href)
  else (text, some href)

/-- One iteration of the mark loop of `get_node_text_content` (lines
395–456).  State: the text so far and the pending `link_href`. -/
def gntcApplyMark (ctx : Ctx) (text : String) (linkHref : Option String)
    (mark : JVal) : Except PyErr (String × Option String) := do
  match mark with
  | .obj _ =>
    let markType := mark.dget? "type"
    if markType = some (.str "link") then
      let hrefV := (mark.dgetD "attrs" (.obj .nil)).dgetD "href" (.str "")
      match hrefV with
      | .str href =>
        if pyStartsWith href "#" then
          let anchorId := pyDrop1 href
          if ctx.anchorRegistered (.str anchorId) then
            .ok ("<<" ++ anchorId ++ "," ++ text ++ ">>", linkHref)
          else
            .ok (gntcJiraCheck ctx href text linkHref)
        else if pyInStr "#" href then
          match ctx.base_url with
          | none =>
            throw (.typeError "in str requires string as left operand, not NoneType")
          | some b =>
            if pyInStr b href then
              let parts := pySplit href "#"
              let pageUrl := parts.getD 0 ""
              let anchorId := parts.getD 1 ""
              match extract_page_id_from_url pageUrl with
              | some pid =>
                match ctx.pageEntry? pid with
                | some entry =>
                  if entry.hasKey "path" then
                    match entry.dget? "path" with
                    | some (.str targetPath) =>
                      let relPath := pyRelpath targetPath (pyDirname ctx.current_file_path)
                      .ok ("xref:" ++ relPath ++ "#" ++ anchorId ++ "[" ++ text ++ "]",
                        linkHref)
                    | _ => throw (.typeError "relpath expects str")
                  else
                    .ok (gntcJiraCheck ctx href text (some href))
                | none => .ok (gntcJiraCheck ctx href text (some href))
              | none => .ok (gntcJiraCheck ctx href text (some href))
            else
              .ok (gntcJiraCheck ctx href text linkHref)
        else
          .ok (gntcJiraCheck ctx href text linkHref)
      | _ => throw (.attributeError "href is not a str")
    else if markType = some (.str "strong") then
      .ok ("*" ++ text ++ "*", linkHref)
    else if markType = some (.str "em") then
      .ok ("_" ++ text ++ "_", linkHref)
    else if markType = some (.str "code") then
      .ok ("`" ++ text ++ "`", linkHref)
    else if markType = some (.str "strike") then
      .ok ("[.line-through]#" ++ text ++ "#", linkHref)
    else if markType = some (.str "subsup") ∧
        (mark.dgetD "attrs" (.obj .nil)).dget? "type" = some (.str "sub") then
      .ok ("~" ++ text ++ "~", linkHref)
    else if markType = some (.str "subsup") ∧
        (mark.dgetD "attrs" (.obj .nil)).dget? "type" = some (.str "sup") then
      .ok ("^" ++ text ++ "^", linkHref)
    else
      .ok (text, linkHref)
  | _ => throw (.attributeError "mark is not a dict")

def gntcFoldMarks (ctx : Ctx) : List JVal → String → Option String →
    Except PyErr (String × Option String)
  | [], text, linkHref => .ok (text, linkHref)
  | mark :: rest, text, linkHref => do
    let (text', linkHref') ← gntcApplyMark ctx text linkHref mark
    gntcFoldMarks ctx rest text' linkHref'

mutual

/-- `get_node_text_content(node, context)` (lines 386–478), with recursion
fuel (decremented on every recursive call; any fuel beyond the node count
of the subtree gives the Python behaviour). -/
def getNodeTextContent : Nat → JVal → Ctx → Except PyErr String
  | 0, _, _ => throw .outOfFuel
  | fuel + 1, node, ctx => do
    if !node.isTruthy then
      .ok ""
    else
      match node with
      | .obj _ =>
        if node.typeStr? = some "text" then
          let text0 := pyStr (node.dgetD "text" (.str ""))
          let marks := match node.dget? "marks" with
            | some (.arr l) => l.toList
            | _ => []
          let (text1, linkHref) ← gntcFoldMarks ctx marks text0 none
          let text2 := match linkHref with
            | some h => if h ≠ "" then applyLinkHref h text1 else text1
            | none => text1
          if ctx.in_table_cell then
            .ok (pyReplace text2 "|" "\\|")
          else
            .ok text2
        else
          match node.dget? "content" with
          | some (.arr l) =>
            if l = .nil then .ok "" else gntcList fuel l ctx
          | _ => .ok ""
      | _ => throw (.attributeError "node has no attribute get")

def gntcList : Nat → JList → Ctx → Except PyErr String
  | 0, _, _ => throw .outOfFuel
  | _ + 1, .nil, _ => .ok ""
  | fuel + 1, .cons v rest, ctx => do
    let s ← getNodeTextContent fuel v ctx
    let s' ← gntcList fuel rest ctx
    .ok (s ++ s')

end

/-!
Section: `process_text_node` (lines 481–519)
-/

/-- One iteration of the mark loop of `process_text_node`: this variant
handles `underline` (which `get_node_text_content` does not) and has no
`subsup` handling; its link branch renders immediately in encounter order. -/
def ptnApplyMark (ctx : Ctx) (text : String) (mark : JVal) : Except PyErr String := do
  let markType := mark.dgetD "type" (.str "")
  if markType = .str "strong" then
    .ok ("*" ++ text ++ "*")
  else if markType = .str "em" then
    .ok ("_" ++ text ++ "_")
  else if markType = .str "code" then
    .ok ("`" ++ text ++ "`")
  else if markType = .str "strike" then
    .ok ("[.line-through]#" ++ text ++ "#")
  else if markType = .str "underline" then
    .ok ("[.underline]#" ++ text ++ "#")
  else if markType = .str "link" then
    match (mark.dgetD "attrs" (.obj .nil)).dgetD "href" (.str "") with
    | .str url =>
      if ctx.page_mapping ≠ [] then
        match ctx.base_url with
        | none =>
          throw (.typeError "in str requires string as left operand, not NoneType")
        | some b =>
          if pyInStr b url then
            match extract_page_id_from_url url with
            | some pid =>
              match ctx.pageEntry? pid with
              | some entry =>
                match entry.dget? "path" with
                | some (.str targetPath) =>
                  let relPath := pyRelpath targetPath (pyDirname ctx.current_file_path)
                  .ok ("xref:" ++ relPath ++ "[" ++ text ++ "]")
                | some _ => throw (.typeError "relpath expects str")
                | none => throw (.keyError "path")
              | none => .ok ("link:" ++ url ++ "[" ++ text ++ "]")
            | none => .ok ("link:" ++ url ++ "[" ++ text ++ "]")
          else
            .ok ("link:" ++ url ++ "[" ++ text ++ "]")
      else
        .ok ("link:" ++ url ++ "[" ++ text ++ "]")
    | _ => throw (.attributeError "href is not a str")
  else
    .ok text

def ptnFoldMarks (ctx : Ctx) : List JVal → String → Except PyErr String
  | [], text => .ok text
  | mark :: rest, text => do
    let text' ← ptnApplyMark ctx text mark
    ptnFoldMarks ctx rest text'

/-- `process_text_node(node, context)` (lines 481–519). -/
def process_text_node (node : JVal) (ctx : Ctx) : Except PyErr String := do
  let text0 := pyStr (node.dgetD "text" (.str ""))
  let marks := match node.dget? "marks" with
    | some (.arr l) => l.toList
    | _ => []
  ptnFoldMarks ctx marks text0

/-!
Section: media, heading and code-block renderers (lines 21–71, 214–230)
-/

/-- `process_media_node(node, context)` (lines 21–48). -/
def process_media_node (node : JVal) (ctx : Ctx) : List String :=
  let mediaId := (node.dgetD "attrs" (.obj .nil)).dgetD "id" (.str "")
  let altText := (node.dgetD "attrs" (.obj .nil)).dgetD "alt" (.str "")
  let fromMapping :=
    match mediaId with
    | .str s => (smapGet? ctx.file_id_to_filename s).getD ""
    | _ => ""
  let fromMediaFiles :=
    if fromMapping = "" ∧ ctx.media_files ≠ [] then
      match ctx.media_files.find? (fun mf => mf.dget? "id" = some mediaId) with
      | some mf => pyStr (mf.dgetD "title" (.str ""))
      | none => ""
    else fromMapping
  let imageFilename :=
    if fromMediaFiles = "" then pyStr mediaId ++ ".png"
    else if !pyInStr "." fromMediaFiles then fromMediaFiles ++ ".png"
    else fromMediaFiles
  if altText.isTruthy then
    ["." ++ pyStr altText ++ "\nimage::" ++ imageFilename ++ "[]\n"]
  else
    ["image::" ++ imageFilename ++ "[]\n"]

/-- `process_media_single_node(node, context)` (lines 51–63). -/
def process_media_single_node (node : JVal) (ctx : Ctx) : List String :=
  let mediaNodes := (match node.dget? "content" with
    | some (.arr l) => l.toList
    | _ => []).filter (fun child => child.typeStr? = some "media")
  match mediaNodes with
  | [] => []
  | mediaNode :: _ =>
    match process_media_node mediaNode ctx with
    | first :: _ => ["\n" ++ first]
    | [] => []

/-- `process_heading_node(node, context)` (lines 66–71): the level defaults
to 1; a non-integer level would make `"=" * level` raise in Python. -/
def process_heading_node (fuel : Nat) (node : JVal) (ctx : Ctx) :
    Except PyErr (List String) := do
  let level := (node.dgetD "attrs" (.obj .nil)).dgetD "level" (.int 1)
  match level with
  | .int n =>
    let headingText ← getNodeTextContent fuel node ctx
    .ok ["\n" ++ pyRepeat "=" n ++ " " ++ headingText ++ "\n"]
  | _ => throw (.typeError "cannot multiply sequence by non-int")

/-- `process_code_block_node(node, context)` (lines 214–230). -/
def process_code_block_node (node : JVal) (ctx : Ctx) : List String :=
  let language := pyStr ((node.dgetD "attrs" (.obj .nil)).dgetD "language" (.str ""))
  let children := match node.dget? "content" with
    | some (.arr l) => l.toList
    | _ => []
  let codeContent := String.join (children.map (fun c =>
    if c.typeStr? = some "text" then pyStr (c.dgetD "text" (.str "")) else ""))
  ["\n[source," ++ language ++ "]", "\n----", "\n" ++ codeContent, "\n----\n"]

/-!
Section: a model of `json.loads` for the macro-parameter strings

`process_extension_node` parses a further JSON-encoded parameter string
(the `jira-jql-snapshot` macro).  This is a recursive-descent parser for
the JSON subset appearing in those parameters (objects, arrays, strings
with the common escapes, integers, booleans, null); floats are not
modelled (none occur in the repository's documents or tests), and error
message texts are the model's, not CPython's.
-/

def jsonSkipWs (l : List Char) : List Char :=
  l.dropWhile (fun c => c = ' ' ∨ c = '\n' ∨ c = '\t' ∨ c = '\r')

def hexVal (c : Char) : Option Nat :=
  if '0' ≤ c ∧ c ≤ '9' then some (c.toNat - '0'.toNat)
  else if 'a' ≤ c ∧ c ≤ 'f' then some (c.toNat - 'a'.toNat + 10)
  else if 'A' ≤ c ∧ c ≤ 'F' then some (c.toNat - 'A'.toNat + 10)
  else none

def jsonParseStringBody : List Char → List Char → Except String (String × List Char)
  | acc, '"' :: rest => .ok (String.mk acc.reverse, rest)
  | acc, '\\' :: e :: rest =>
    (match e with
     | '"' => jsonParseStringBody ('"' :: acc) rest
     | '\\' => jsonParseStringBody ('\\' :: acc) rest
     | '/' => jsonParseStringBody ('/' :: acc) rest
     | 'n' => jsonParseStringBody ('\n' :: acc) rest
     | 't' => jsonParseStringBody ('\t' :: acc) rest
     | 'r' => jsonParseStringBody ('\r' :: acc) rest
     | 'b' => jsonParseStringBody (Char.ofNat 8 :: acc) rest
     | 'f' => jsonParseStringBody (Char.ofNat 12 :: acc) rest
     | 'u' =>
       match rest with
       | h1 :: h2 :: h3 :: h4 :: r2 =>
         match hexVal h1, hexVal h2, hexVal h3, hexVal h4 with
         | some a, some b, some c, some d =>
           jsonParseStringBody (Char.ofNat (((a * 16 + b) * 16 + c) * 16 + d) :: acc) r2
         | _, _, _, _ => .error "invalid unicode escape"
       | _ => .error "invalid unicode escape"
     | _ => .error "invalid escape")
  | acc, c :: rest => jsonParseStringBody (c :: acc) rest
  | _, [] => .error "unterminated string"
termination_by _ l => l.length

def digitsToNat (l : List Char) : Nat :=
  l.foldl (fun n c => n * 10 + (c.toNat - '0'.toNat)) 0

def jsonParseIntFrom (l : List Char) : Except String (Int × List Char) :=
  let (neg, l') := match l with
    | '-' :: r => (true, r)
    | _ => (false, l)
  let ds := takeDigits l'
  if ds.isEmpty then .error "expecting value"
  else
    match l'.drop ds.length with
    | '.' :: _ => .error "float literals are not modelled"
    | 'e' :: _ => .error "float literals are not modelled"
    | 'E' :: _ => .error "float literals are not modelled"
    | rest =>
      let n : Int := Int.ofNat (digitsToNat ds)
      .ok (if neg then -n else n, rest)

mutual

def jsonParseValue : Nat → List Char → Except String (JVal × List Char)
  | 0, _ => .error "document too deep"
  | fuel + 1, l =>
    match jsonSkipWs l with
    | '{' :: rest =>
      (match jsonSkipWs rest with
       | '}' :: r2 => .ok (.obj .nil, r2)
       | r1 => do
         let (fs, r2) ← jsonParseMembers fuel r1
         .ok (.obj fs, r2))
    | '[' :: rest =>
      (match jsonSkipWs rest with
       | ']' :: r2 => .ok (.arr .nil, r2)
       | r1 => do
         let (es, r2) ← jsonParseElems fuel r1
         .ok (.arr es, r2))
    | '"' :: rest => do
      let (s, r2) ← jsonParseStringBody [] rest
      .ok (.str s, r2)
    | 't' :: 'r' :: 'u' :: 'e' :: rest => .ok (.bool true, rest)
    | 'f' :: 'a' :: 'l' :: 's' :: 'e' :: rest => .ok (.bool false, rest)
    | 'n' :: 'u' :: 'l' :: 'l' :: rest => .ok (.null, rest)
    | rest => do
      let (n, r2) ← jsonParseIntFrom rest
      .ok (.int n, r2)

def jsonParseMembers : Nat → List Char → Except String (JFields × List Char)
  | 0, _ => .error "document too deep"
  | fuel + 1, l =>
    match jsonSkipWs l with
    | '"' :: rest => do
      let (k, r1) ← jsonParseStringBody [] rest
      match jsonSkipWs r1 with
      | ':' :: r2 => do
        let (v, r3) ← jsonParseValue fuel r2
        match jsonSkipWs r3 with
        | ',' :: r4 => do
          let (fs, r5) ← jsonParseMembers fuel r4
          .ok (.cons k v fs, r5)
        | '}' :: r4 => .ok (.cons k v .nil, r4)
        | _ => .error "expecting , or \x7d"
      | _ => .error "expecting :"
    | _ => .error "expecting property name"

def jsonParseElems : Nat → List Char → Except String (JList × List Char)
  | 0, _ => .error "document too deep"
  | fuel + 1, l => do
    let (v, r1) ← jsonParseValue fuel l
    match jsonSkipWs r1 with
    | ',' :: r2 => do
      let (es, r3) ← jsonParseElems fuel r2
      .ok (.cons v es, r3)
    | ']' :: r2 => .ok (.cons v .nil, r2)
    | _ => .error "expecting , or ]"

end

/-- `json.loads(s)` for the modelled subset. -/
def jsonLoads (s : String) : Except String JVal := do
  let (v, rest) ← jsonParseValue (s.length + 1) s.toList
  if (jsonSkipWs rest).isEmpty then .ok v else .error "extra data"

/-!
Section: extension/macro handlers (lines 233–383, 711–755)
-/

/-- Python `x.get(k, d)` raising for non-dict `x`, as inside the guarded
`try` blocks of `process_extension_node`. -/
def pyGetD (j : JVal) (k : String) (d : JVal) : Except String JVal :=
  match j with
  | .obj _ => .ok (j.dgetD k d)
  | _ => .error "object has no attribute get"

/-- The `try` body of the `jira-jql-snapshot` branch (lines 244–282):
extract the JSON-encoded macro parameter string, parse it, and build the
`jiraIssuesTable::` directive from the first level. -/
def jiraSnapshotExtract (attrs : JVal) : Except String (List String) := do
  let p1 ← pyGetD attrs "parameters" (.obj .nil)
  let p2 ← pyGetD p1 "macroParams" (.obj .nil)
  let p3 ← pyGetD p2 "macroParams" (.obj .nil)
  let vstr ← pyGetD p3 "value" (.str "{}")
  match vstr with
  | .str s => do
    let macroParams ← jsonLoads s
    match macroParams.dget? "levels" with
    | some (.arr (.cons level _)) => do
      let jql := pyStr ((level.dgetD "jql" (.str "")))
      let fieldsPosition := match level.dget? "fieldsPosition" with
        | some (.arr l) => l.toList
        | _ => []
      let fields ← fieldsPosition.foldlM (fun (acc : List String) fieldObj => do
        if (fieldObj.dgetD "available" (.bool false)).isTruthy ∧
            ((fieldObj.dgetD "value" (.obj .nil)).dgetD "id" .null).isTruthy then
          match (fieldObj.dgetD "value" (.obj .nil)).dgetD "id" .null with
          | .str fid => .ok (acc ++ [fid])
          | _ => .error "sequence item: expected str instance"
        else .ok acc) []
      let fieldsStr := String.intercalate "," fields
      let title := level.dgetD "title" (.str "")
      if title.isTruthy then
        .ok ["\njiraIssuesTable::['" ++ jql ++ "', fields=\"" ++ fieldsStr ++
          "\", title=\"" ++ pyStr title ++ "\"]\n"]
      else
        .ok ["\njiraIssuesTable::['" ++ jql ++ "', fields=\"" ++ fieldsStr ++ "\"]\n"]
    | _ => .ok []
  | _ => .error "the JSON object must be str, bytes or bytearray"

/-- The `try` body of the `approvers-macro` branch (lines 292–314). -/
def approversExtract (attrs : JVal) : Except String (List String) := do
  if !attrs.hasKey "parameters" then
    .error "Missing required parameters structure"
  else do
    let p1 ← pyGetD attrs "parameters" (.obj .nil)
    let p2 ← pyGetD p1 "macroParams" (.obj .nil)
    let p3 ← pyGetD p2 "data" (.obj .nil)
    let dataValue ← pyGetD p3 "value" (.str "")
    let option := if dataValue = .str "Latest Approvals for Current Workflow"
      then "latest" else "all"
    .ok ["\nworkflowApproval:" ++ option ++ "[]\n"]

/-- `process_extension_node(node, context)` (lines 233–336).  Every branch
catches extraction failures and degrades to a one-line comment. -/
def process_extension_node (node : JVal) : List String :=
  let attrs := node.dgetD "attrs" (.obj .nil)
  let extKey := attrs.dgetD "extensionKey" (.str "")
  if extKey = .str "toc" then
    ["\n:toc:\n"]
  else if extKey = .str "jira-jql-snapshot" then
    match jiraSnapshotExtract attrs with
    | .ok r => r
    | .error e => ["\n// Error processing JIRA snapshot: " ++ e ++ "\n"]
  else if extKey = .str "approvers-macro" then
    match approversExtract attrs with
    | .ok r => r
    | .error e => ["\n// Error processing Workflow Approvers: " ++ e ++ "\n"]
  else if extKey = .str "document-control-table-macro" then
    if !attrs.hasKey "parameters" then
      ["\n// Error processing Workflow Change Table: Missing required parameters structure\n"]
    else
      ["\nworkflowChangeTable:[]\n"]
  else
    []

/-- The static label → target table of the `metadata-macro` handler
(lines 365–373). -/
def workflowMetadataReverse : List (String × String) :=
  [("Approvers for Current Status", "approvers"),
   ("Current Official Version Description", "versiondesc"),
   ("Current Official Version", "version"),
   ("Expiry Date", "expiry"),
   ("Transition Date", "transition"),
   ("Unique Page ID", "pageid"),
   ("Workflow Status", "status")]

/-- `process_inline_extension_node(node, context)` (lines 339–383): the
`anchor` macro registers its first unnamed parameter into
`context["anchors"]` (via `setdefault`) and emits `[[id]]`; the
`metadata-macro` maps its label through the static table. -/
def process_inline_extension_node (node : JVal) (ctx : Ctx) : List String × Ctx :=
  let attrs := node.dgetD "attrs" (.obj .nil)
  let extKey := attrs.dgetD "extensionKey" (.str "")
  if extKey = .str "anchor" then
    let macroParams := (attrs.dgetD "parameters" (.obj .nil)).dgetD "macroParams" (.obj .nil)
    let anchorId := (macroParams.dgetD "" (.obj .nil)).dgetD "value" (.str "")
    if anchorId.isTruthy then
      (["[[" ++ pyStr anchorId ++ "]]"], ctx.registerAnchor anchorId)
    else
      ([], ctx)
  else if extKey = .str "metadata-macro" then
    let macroParams := (attrs.dgetD "parameters" (.obj .nil)).dgetD "macroParams" (.obj .nil)
    let dataValue := (macroParams.dgetD "data" (.obj .nil)).dgetD "value" (.str "")
    let target := match dataValue with
      | .str s => smapGet? workflowMetadataReverse s
      | _ => none
    match target with
    | some t => (["appfoxWorkflowMetadata:" ++ t ++ "[]"], ctx)
    | none => (["// Unknown workflow metadata: " ++ pyStr dataValue], ctx)
  else
    ([], ctx)

/-- `process_mention_node(node, context)` (lines 711–730); the debug
`print` is a no-op in the model. -/
def process_mention_node (node : JVal) (ctx : Ctx) : Except PyErr (List String × Ctx) := do
  let mentionAttrs := node.dgetD "attrs" (.obj .nil)
  let userId := mentionAttrs.dgetD "id" (.str "")
  match mentionAttrs.dgetD "text" (.str "") with
  | .str mentionText =>
    let username := if pyStartsWith mentionText "@" then pyDrop1 mentionText else mentionText
    let macroUsername := pyReplace username " " "_"
    .ok (["atlasMention:" ++ macroUsername ++ "[]"],
      ctx.registerMention macroUsername (pyStr userId))
  | _ => throw (.attributeError "text is not a str")

/-- `process_inline_card_node(node, context)` (lines 733–755). -/
def process_inline_card_node (node : JVal) (ctx : Ctx) : List String :=
  let url := pyStr (node.dgetD "attrs" (.obj .nil) |>.dgetD "url" (.str ""))
  if url = "" then []
  else
    match ctx.confluence_client with
    | none => ["link:" ++ url ++ "[" ++ url ++ "]"]
    | some client =>
      let title : Option String :=
        if pyInStr "atlassian.net/wiki" url then client.getConfluencePageTitle url
        else if pyInStr "atlassian.net/browse" url then client.getJiraTicketTitle url
        else none
      let linkText := match title with
        | some t => if t ≠ "" then t else url
        | none => url
      ["link:" ++ url ++ "[" ++ linkText ++ "]"]

/-!
Section: the dispatcher and the block renderers that recurse through it
(`process_node`, paragraph, table, list — lines 74–211, 522–577, 623–672)

All functions carry recursion fuel, decremented at every call in the
mutual block, so the recursion is structural and concrete runs reduce in
the kernel; any fuel larger than the total number of processing steps
reproduces the Python behaviour, and theorems are stated for arbitrary
fuel, conditioned on a non-`outOfFuel` result.
-/

/-- `node.get("content", [])` as a `List JVal` (non-sequence values give
the empty list). -/
def contentList (node : JVal) : List JVal :=
  match node.dget? "content" with
  | some (.arr l) => l.toList
  | _ => []

mutual

/-- `process_node(node, context, indent="")` (lines 522–577).  The
`tableCell`/`tableHeader` branch (line 547) calls
`process_table_cell_node(node, context, False)` — three arguments for a
two-parameter function — so it raises `TypeError`.  `process_table_node`
and `process_table_row_node` return bare strings rather than lists; the
model returns them as singleton lists, which downstream `"".join` cannot
distinguish. -/
def processNode : Nat → JVal → Ctx → String → Except PyErr (List String × Ctx)
  | 0, _, _, _ => throw .outOfFuel
  | fuel + 1, node, ctx, indent => do
    if ctx.next_node_to_skip = some node then
      .ok ([], { ctx with next_node_to_skip := none })
    else
      match node with
      | .obj _ =>
        let nodeType := node.dget? "type"
        let ctx := if nodeType = some (.str "doc")
          then { ctx with doc_content := some (node.dgetD "content" (.arr .nil)) }
          else ctx
        if nodeType = some (.str "mediaSingle") then
          .ok (process_media_single_node node ctx, ctx)
        else if nodeType = some (.str "heading") then do
          let r ← process_heading_node fuel node ctx
          .ok (r, ctx)
        else if nodeType = some (.str "paragraph") then
          processParagraphNode fuel node ctx indent
        else if nodeType = some (.str "table") then do
          let (s, ctx') ← processTableNode fuel node ctx
          .ok ([s], ctx')
        else if nodeType = some (.str "tableRow") then do
          let (s, ctx') ← processTableRowNode fuel node ctx
          .ok ([s], ctx')
        else if nodeType = some (.str "tableCell") ∨ nodeType = some (.str "tableHeader") then
          throw (.typeError
            "process_table_cell_node() takes 2 positional arguments but 3 were given")
        else if nodeType = some (.str "media") then
          .ok (process_media_node node ctx, ctx)
        else if nodeType = some (.str "bulletList") ∨ nodeType = some (.str "orderedList") then
          processListNode fuel node ctx indent
        else if nodeType = some (.str "listItem") then do
          let (lines, ctx') ← processListItemContent fuel node ctx indent
          .ok ([String.intercalate "\n" lines], ctx')
        else if nodeType = some (.str "codeBlock") then
          .ok (process_code_block_node node ctx, ctx)
        else if nodeType = some (.str "extension") then
          .ok (process_extension_node node, ctx)
        else if nodeType = some (.str "inlineExtension") then
          .ok (process_inline_extension_node node ctx)
        else if nodeType = some (.str "mention") then
          process_mention_node node ctx
        else if nodeType = some (.str "inlineCard") then
          .ok (process_inline_card_node node ctx, ctx)
        else if nodeType = some (.str "text") then do
          let t ← process_text_node node ctx
          .ok ([t], ctx)
        else
          match node.dget? "content" with
          | some (.arr l) =>
            if l = .nil then .ok ([], ctx)
            else processContentList fuel l ctx indent
          | _ => .ok ([], ctx)
      | _ => throw (.attributeError "node has no attribute get")

/-- The transparent-descent loop of the unknown-type fallback
(lines 570–574). -/
def processContentList : Nat → JList → Ctx → String → Except PyErr (List String × Ctx)
  | 0, _, _, _ => throw .outOfFuel
  | _ + 1, .nil, ctx, _ => .ok ([], ctx)
  | fuel + 1, .cons c rest, ctx, indent => do
    let (out, ctx₁) ← processNode fuel c ctx indent
    let (outs, ctx₂) ← processContentList fuel rest ctx₁ indent
    .ok (out ++ outs, ctx₂)

/-- `process_paragraph_node(node, context, indent="")` (lines 74–102). -/
def processParagraphNode : Nat → JVal → Ctx → String → Except PyErr (List String × Ctx)
  | 0, _, _, _ => throw .outOfFuel
  | fuel + 1, node, ctx, indent => do
    let simplePath : Except PyErr (List String × Ctx) := do
      let t ← getNodeTextContent fuel node ctx
      if pyTrim t ≠ "" then .ok ([indent ++ t ++ "\n"], ctx)
      else .ok ([""], ctx)
    match node.dget? "content" with
    | some v =>
      if v.isTruthy then
        match v with
        | .arr l =>
          let children := l.toList
          let hasNeed := children.any (fun c =>
            c.dget? "type" = some (.str "inlineExtension") ∨
            c.dget? "type" = some (.str "mention") ∨
            c.dget? "type" = some (.str "inlineCard"))
          if hasNeed then do
            let (parts, ctx') ← paragraphParts fuel children ctx
            .ok ([indent ++ String.join parts ++ "\n"], ctx')
          else simplePath
        | _ => throw (.attributeError "content is not iterable over dicts")
      else simplePath
    | none => simplePath

/-- The mixed-content loop of `process_paragraph_node` (lines 86–94). -/
def paragraphParts : Nat → List JVal → Ctx → Except PyErr (List String × Ctx)
  | 0, _, _ => throw .outOfFuel
  | _ + 1, [], ctx => .ok ([], ctx)
  | fuel + 1, c :: rest, ctx => do
    if c.dget? "type" = some (.str "inlineExtension") ∨
        c.dget? "type" = some (.str "mention") ∨
        c.dget? "type" = some (.str "inlineCard") then
      let (ext, ctx₁) ← processNode fuel c ctx ""
      let (parts, ctx₂) ← paragraphParts fuel rest ctx₁
      .ok (ext ++ parts, ctx₂)
    else do
      let t ← getNodeTextContent fuel c ctx
      let (parts, ctx₂) ← paragraphParts fuel rest ctx
      .ok (t :: parts, ctx₂)

/-- `process_table_node(node, context)` (lines 105–116): returns the whole
table as one string. -/
def processTableNode : Nat → JVal → Ctx → Except PyErr (String × Ctx)
  | 0, _, _ => throw .outOfFuel
  | fuel + 1, node, ctx => do
    let rows := match node.dget? "content" with
      | some (.arr l) => l.toList
      | _ => []
    let (rowStrs, ctx') ← tableRowsLoop fuel rows ctx
    .ok (String.join ("|===\n" :: rowStrs ++ ["|===\n"]), ctx')

def tableRowsLoop : Nat → List JVal → Ctx → Except PyErr (List String × Ctx)
  | 0, _, _ => throw .outOfFuel
  | _ + 1, [], ctx => .ok ([], ctx)
  | fuel + 1, r :: rest, ctx => do
    if r.dget? "type" = some (.str "tableRow") then
      let (s, ctx₁) ← processTableRowNode fuel r ctx
      let (ss, ctx₂) ← tableRowsLoop fuel rest ctx₁
      .ok (s :: ss, ctx₂)
    else
      tableRowsLoop fuel rest ctx

/-- `process_table_row_node(node, context)` (lines 119–131). -/
def processTableRowNode : Nat → JVal → Ctx → Except PyErr (String × Ctx)
  | 0, _, _ => throw .outOfFuel
  | fuel + 1, node, ctx => do
    let cells := match node.dget? "content" with
      | some (.arr l) => l.toList
      | _ => []
    let (cellStrs, ctx') ← rowCellsLoop fuel cells ctx
    .ok (String.intercalate " " cellStrs ++ "\n", ctx')

def rowCellsLoop : Nat → List JVal → Ctx → Except PyErr (List String × Ctx)
  | 0, _, _ => throw .outOfFuel
  | _ + 1, [], ctx => .ok ([], ctx)
  | fuel + 1, c :: rest, ctx => do
    let ((cellText, isComplex), ctx₁) ← processTableCellNode fuel c ctx
    let (ss, ctx₂) ← rowCellsLoop fuel rest ctx₁
    .ok (((if isComplex then "a| " else "| ") ++ cellText) :: ss, ctx₂)

/-- `process_table_cell_node(node, context)` (lines 134–175): renders the
cell content in a sub-context (`context.copy()` with `in_table_cell`
set), classifies the cell, and escapes pipes in non-complex cells. -/
def processTableCellNode : Nat → JVal → Ctx → Except PyErr ((String × Bool) × Ctx)
  | 0, _, _ => throw .outOfFuel
  | fuel + 1, node, ctx => do
    let cellCtx := { ctx with in_table_cell := true }
    let contents := contentList node
    let ((cellLines, hasComplex), after) ←
      cellContentsLoop fuel contents cellCtx [] false false
    let cellText := String.intercalate "\n" cellLines
    let cellText :=
      if !hasComplex then pyReplace (pyReplace cellText "|" "\\|") "\\\\|" "\\|"
      else cellText
    .ok ((cellText, hasComplex || pyInStr "\n" cellText), ctx.mergeShared after)

/-- The content loop of `process_table_cell_node` (lines 146–164),
carrying `cell_lines`, `has_complex_content` and `had_paragraph`. -/
def cellContentsLoop : Nat → List JVal → Ctx → List String → Bool → Bool →
    Except PyErr ((List String × Bool) × Ctx)
  | 0, _, _, _, _, _ => throw .outOfFuel
  | _ + 1, [], ctx, cellLines, hasComplex, _ => .ok ((cellLines, hasComplex), ctx)
  | fuel + 1, cn :: rest, ctx, cellLines, hasComplex, hadPara => do
    let isComplexType :=
      cn.dget? "type" = some (.str "bulletList") ∨
      cn.dget? "type" = some (.str "orderedList") ∨
      cn.dget? "type" = some (.str "codeBlock") ∨
      cn.dget? "type" = some (.str "panel")
    let hasComplex₁ := hasComplex || isComplexType
    let cellLines₁ :=
      if isComplexType ∧ hadPara ∧ cellLines ≠ [] then cellLines ++ [""] else cellLines
    let (out, ctx₁) ← processNode fuel cn ctx ""
    let contentResult := pyTrim (String.join out)
    let cellLines₂ :=
      if contentResult ≠ "" then cellLines₁ ++ [contentResult] else cellLines₁
    cellContentsLoop fuel rest ctx₁ cellLines₂ hasComplex₁
      (cn.dget? "type" = some (.str "paragraph"))

/-- `process_list_node(node, context, indent="")` (lines 178–211): mutates
the *shared* context's `list_depth`/`in_bullet_list` around the items. -/
def processListNode : Nat → JVal → Ctx → String → Except PyErr (List String × Ctx)
  | 0, _, _, _ => throw .outOfFuel
  | fuel + 1, node, ctx, indent => do
    let isBullet := node.dget? "type" = some (.str "bulletList")
    let ctx₁ := { ctx with list_depth := some ((ctx.list_depth.getD 0) + 1),
                           in_bullet_list := some isBullet }
    let items := match node.dget? "content" with
      | some (.arr l) => l.toList
      | _ => []
    let (itemStrs, ctx₂) ← listItemsLoop fuel items ctx₁ indent
    let newDepth := (ctx₂.list_depth.getD 0) - 1
    let ctx₃ := { ctx₂ with list_depth := some newDepth }
    let ctx₄ := if newDepth = 0 then { ctx₃ with in_bullet_list := none } else ctx₃
    let joined := String.intercalate "\n" itemStrs
    if !ctx₄.in_table_cell ∧ joined ≠ "" then
      .ok (["\n" ++ joined ++ "\n\n"], ctx₄)
    else
      .ok (["\n" ++ joined], ctx₄)

def listItemsLoop : Nat → List JVal → Ctx → String → Except PyErr (List String × Ctx)
  | 0, _, _, _ => throw .outOfFuel
  | _ + 1, [], ctx, _ => .ok ([], ctx)
  | fuel + 1, item :: rest, ctx, indent => do
    if item.dget? "type" = some (.str "listItem") then
      let (lines, ctx₁) ← processListItemContent fuel item ctx indent
      let (ss, ctx₂) ← listItemsLoop fuel rest ctx₁ indent
      .ok (String.intercalate "\n" lines :: ss, ctx₂)
    else
      listItemsLoop fuel rest ctx indent

/-- `process_list_item_content(item_node, context, indent="")` (lines
623–672): renders in an `item_context = context.copy()`. -/
def processListItemContent : Nat → JVal → Ctx → String → Except PyErr (List String × Ctx)
  | 0, _, _, _ => throw .outOfFuel
  | fuel + 1, itemNode, ctx, indent => do
    let marker := pyRepeat (if ctx.in_bullet_list.getD true then "*" else ".")
      (ctx.list_depth.getD 1)
    let itemCtx := { ctx with list_item_indent := some (marker ++ " ") }
    let contents := match itemNode.dget? "content" with
      | some (.arr l) => l.toList
      | _ => []
    let (lines, after) ← itemContentsLoop fuel contents itemCtx indent marker []
    .ok (lines, ctx.mergeShared after)

/-- The content loop of `process_list_item_content` (lines 645–671). -/
def itemContentsLoop : Nat → List JVal → Ctx → String → String → List String →
    Except PyErr (List String × Ctx)
  | 0, _, _, _, _, _ => throw .outOfFuel
  | _ + 1, [], ctx, _, _, itemLines => .ok (itemLines, ctx)
  | fuel + 1, cn :: rest, ctx, indent, marker, itemLines => do
    let paraIndent := if ctx.in_table_cell then "" else indent
    if cn.dget? "type" = some (.str "paragraph") ∧ itemLines = [] then
      let (out, ctx₁) ← processNode fuel cn ctx ""
      let itemText := pyRstrip (String.join out)
      itemContentsLoop fuel rest ctx₁ indent marker
        (itemLines ++ [paraIndent ++ marker ++ " " ++ itemText])
    else if cn.dget? "type" = some (.str "bulletList") ∨
        cn.dget? "type" = some (.str "orderedList") then
      if itemLines ≠ [] then do
        let (out, ctx₁) ← processNode fuel cn ctx (indent ++ "  ")
        itemContentsLoop fuel rest ctx₁ indent marker
          (itemLines ++ ["\n" ++ String.join out])
      else do
        let (out, ctx₁) ← processNode fuel cn ctx indent
        itemContentsLoop fuel rest ctx₁ indent marker
          (itemLines ++ [paraIndent ++ marker ++ "\n" ++ String.join out])
    else do
      let (out, ctx₁) ← processNode fuel cn ctx ""
      let itemContent := pyRstrip (String.join out)
      itemContentsLoop fuel rest ctx₁ indent marker
        (if itemContent ≠ "" then itemLines ++ [indent ++ "  " ++ itemContent]
         else itemLines)

end

/-!
Section: claim theorems about the dispatcher
-/

/-- Nodes used in concrete scenarios. -/
def textNodeOf (t : String) (marks : List JVal) : JVal :=
  .obj (.cons "type" (.str "text") (.cons "text" (.str t)
    (.cons "marks" (.arr (JList.ofList marks)) .nil)))

def plainTextNode (t : String) : JVal :=
  .obj (.cons "type" (.str "text") (.cons "text" (.str t) .nil))

/-- C2: `process_node` is *not* total: dispatching a `tableCell` (or
`tableHeader`) node raises `TypeError`, because line 547 passes three
arguments to the two-parameter `process_table_cell_node`.  The fallback
parts of the claim do hold: an unrecognized type with content descends
transparently, and without content returns empty. -/
theorem claim_C2_process_node_raises :
    (processNode 5 (.obj (.cons "type" (.str "tableCell")
        (.cons "content" (.arr .nil) .nil))) {} "").map Prod.fst
      = .error (.typeError
        "process_table_cell_node() takes 2 positional arguments but 3 were given") ∧
    (processNode 5 (.obj (.cons "type" (.str "tableHeader")
        (.cons "content" (.arr .nil) .nil))) {} "").map Prod.fst
      = .error (.typeError
        "process_table_cell_node() takes 2 positional arguments but 3 were given") ∧
    (processNode 5 (.obj (.cons "type" (.str "unknown_type")
        (.cons "content" (.arr (.cons (plainTextNode "inner") .nil)) .nil))) {} "").map
        Prod.fst = .ok ["inner"] ∧
    (processNode 5 (.obj (.cons "type" (.str "unknown_type") .nil)) {} "").map Prod.fst
      = .ok [] := by
  refine ⟨by decide, by decide, by decide, by decide⟩

/-- C9 counterexample: the skip comparison is Python `==`, which on dicts
is *structural* value equality, not object identity.  Any node that is
value-equal to the flagged node — in particular a distinct copy of it — is
therefore suppressed (empty output, flag cleared) instead of being
rendered normally as the claim states. -/
theorem claim_C9_counterexample :
    processNode 5 (plainTextNode "x")
        { next_node_to_skip := some (plainTextNode "x") } ""
      = .ok ([], {}) ∧
    processNode 5 (plainTextNode "x") {} "" = .ok (["x"], {}) ∧
    ([] : List String) ≠ ["x"] := by
  refine ⟨rfl, rfl, by decide⟩

/-- C9 amended: the skip flag is one-shot and *value*-based: whenever the
context's flag is value-equal to the dispatched node (which is what Python
`==` compares, so it covers the identical object and every value-equal
copy alike), `process_node` clears the flag and returns empty; because the
flag is cleared, the suppression happens at most once per setting. -/
theorem claim_C9_amended (fuel : Nat) (node : JVal) (ctx : Ctx) (indent : String)
    (h : ctx.next_node_to_skip = some node) :
    processNode (fuel + 1) node ctx indent
      = .ok ([], { ctx with next_node_to_skip := none }) := by
  simp [processNode, h]

theorem claim_C9_amended_witness :
    processNode 4 (plainTextNode "x")
        { next_node_to_skip := some (plainTextNode "x") } ""
      = .ok ([], {}) :=
  claim_C9_amended 3 (plainTextNode "x")
    { next_node_to_skip := some (plainTextNode "x") } "" rfl

/-- C10: a heading node with no `level` attribute (or no attrs at all)
defaults to level 1 and renders `"\n= T\n"`; in general the marker is `=`
repeated `attrs.level` times, followed by one space and the extracted text
content. -/
theorem claim_C10_heading_defaults (fuel : Nat) (node : JVal) (ctx : Ctx) (t : String)
    (ht : getNodeTextContent fuel node ctx = .ok t) :
    (((node.dgetD "attrs" (.obj .nil)).dget? "level" = none →
      process_heading_node fuel node ctx = .ok ["\n= " ++ t ++ "\n"]) ∧
     (∀ n : Int, (node.dgetD "attrs" (.obj .nil)).dget? "level" = some (.int n) →
      process_heading_node fuel node ctx
        = .ok ["\n" ++ pyRepeat "=" n ++ " " ++ t ++ "\n"])) := by
  constructor
  · intro hlevel
    simp only [JVal.dgetD] at hlevel
    unfold process_heading_node
    simp only [JVal.dgetD, hlevel, Option.getD_none, ht]
    rfl
  · intro n hlevel
    simp only [JVal.dgetD] at hlevel
    unfold process_heading_node
    simp only [JVal.dgetD, hlevel, Option.getD_some, ht]
    rfl

theorem claim_C10_heading_defaults_witness :
    process_heading_node 5 (.obj (.cons "type" (.str "heading")
        (.cons "content" (.arr (.cons (plainTextNode "Heading title") .nil)) .nil))) {}
      = .ok ["\n= Heading title\n"] :=
  (claim_C10_heading_defaults 5 _ {} "Heading title" (by decide)).1 (by decide)

/-!
Section: C5 — the inline mark table of `get_node_text_content`
-/

theorem JList.toList_ofList : ∀ l : List JVal, (JList.ofList l).toList = l
  | [] => rfl
  | _ :: rest => by simp [JList.ofList, JList.toList, JList.toList_ofList rest]

def JVal.isDict : JVal → Bool
  | .obj _ => true
  | _ => false

/-- A mark object carrying only a `type` field. -/
def markOf (t : String) : JVal := .obj (.cons "type" (.str t) .nil)

/-- The per-mark rewrite actually implemented by the mark loop of
`get_node_text_content` for non-link marks: strong, em, code, strike and
the two subsup variants; every other type — including `underline` — is a
no-op, and no trim/reattach of trailing whitespace happens anywhere. -/
def gntcMarkTable (text : String) (mark : JVal) : String :=
  let markType := mark.dget? "type"
  if markType = some (.str "strong") then "*" ++ text ++ "*"
  else if markType = some (.str "em") then "_" ++ text ++ "_"
  else if markType = some (.str "code") then "`" ++ text ++ "`"
  else if markType = some (.str "strike") then "[.line-through]#" ++ text ++ "#"
  else if markType = some (.str "subsup") ∧
      (mark.dgetD "attrs" (.obj .nil)).dget? "type" = some (.str "sub") then
    "~" ++ text ++ "~"
  else if markType = some (.str "subsup") ∧
      (mark.dgetD "attrs" (.obj .nil)).dget? "type" = some (.str "sup") then
    "^" ++ text ++ "^"
  else text

theorem gntcApplyMark_nonlink (ctx : Ctx) (text : String) (lh : Option String)
    (mark : JVal) (hobj : mark.isDict = true)
    (hnl : mark.dget? "type" ≠ some (.str "link")) :
    gntcApplyMark ctx text lh mark = .ok (gntcMarkTable text mark, lh) := by
  cases mark with
  | obj fs =>
    simp only [gntcApplyMark, gntcMarkTable]
    rw [if_neg hnl]
    split_ifs <;> rfl
  | str s => simp [JVal.isDict] at hobj
  | int n => simp [JVal.isDict] at hobj
  | bool b => simp [JVal.isDict] at hobj
  | null => simp [JVal.isDict] at hobj
  | arr l => simp [JVal.isDict] at hobj

theorem gntcFoldMarks_nonlink (ctx : Ctx) :
    ∀ (marks : List JVal) (text : String) (lh : Option String),
    (∀ m ∈ marks, m.isDict = true ∧ m.dget? "type" ≠ some (.str "link")) →
    gntcFoldMarks ctx marks text lh = .ok (marks.foldl gntcMarkTable text, lh)
  | [], _, _, _ => rfl
  | mark :: rest, text, lh, h => by
    have hm := h mark (List.mem_cons_self mark rest)
    simp only [gntcFoldMarks, gntcApplyMark_nonlink ctx text lh mark hm.1 hm.2]
    simp only [List.foldl_cons]
    exact gntcFoldMarks_nonlink ctx rest (gntcMarkTable text mark) lh
      (fun m hmem => h m (List.mem_cons_of_mem mark hmem))

/-- C5 counterexample: `get_node_text_content` has no `underline` branch
(it is a no-op there) and performs no trim/wrap/reattach of trailing
whitespace: the node with raw text `"hi "` and marks `[underline, strong]`
renders as `"*hi *"` (whitespace inside the markers, underline dropped),
not `"*[.underline]#hi#* "` as the claim's table plus reattach rule
requires.  (`[.underline]#x#` exists only in the unreachable
`process_text_node` variant.) -/
theorem claim_C5_counterexample :
    getNodeTextContent 5 (textNodeOf "hi " [markOf "underline", markOf "strong"]) {}
      = .ok "*hi *" ∧
    "*hi *" ≠ "*[.underline]#hi#* " ∧
    getNodeTextContent 5 (textNodeOf "hi" [markOf "underline"]) {} = .ok "hi" ∧
    "hi" ≠ "[.underline]#hi#" := by
  refine ⟨by decide, by decide, by decide, by decide⟩

/-- C5 amended: for a text node whose marks are all dicts and none of them
a link mark, and outside a table cell, `get_node_text_content` folds the
marks onto the raw text in encounter order using exactly the table
`gntcMarkTable`: strong→*x*, em→_x_, code→`x`,
strike→[.line-through]#x#, subsup/sub→~x~, subsup/sup→^x^, and every
other mark type (underline included) leaves the text unchanged; the raw
text — trailing whitespace included — is wrapped as-is, with no
trim/reattach step. -/
theorem claim_C5_amended (fuel : Nat) (ctx : Ctx) (text : String)
    (marks : List JVal)
    (hm : ∀ m ∈ marks, m.isDict = true ∧ m.dget? "type" ≠ some (.str "link"))
    (hc : ctx.in_table_cell = false) :
    getNodeTextContent (fuel + 1) (textNodeOf text marks) ctx
      = .ok (marks.foldl gntcMarkTable text) := by
  have hfold := gntcFoldMarks_nonlink ctx marks text none hm
  simp [getNodeTextContent, textNodeOf, JVal.isTruthy, JVal.typeStr?,
    JVal.dgetD, JVal.dget?, JFields.lookup?, pyStr, JList.toList_ofList,
    hfold, hc]
  rfl

theorem claim_C5_amended_witness :
    getNodeTextContent 5 (textNodeOf "hi " [markOf "strong", markOf "em"]) {}
      = .ok "_*hi *_" :=
  (claim_C5_amended 4 {} "hi " [markOf "strong", markOf "em"]
    (by decide) rfl).trans (by decide)

/-!
Section: C6 — order-sensitive same-page anchor resolution
-/

/-- An `inlineExtension` node for the `anchor` macro whose first unnamed
macro parameter carries `id`. -/
def anchorNode (id : String) : JVal :=
  .obj (.cons "type" (.str "inlineExtension")
    (.cons "attrs" (.obj (.cons "extensionKey" (.str "anchor")
      (.cons "parameters" (.obj (.cons "macroParams" (.obj
        (.cons "" (.obj (.cons "value" (.str id) .nil)) .nil)) .nil)) .nil))) .nil))

def linkMarkOf (href : String) : JVal :=
  .obj (.cons "type" (.str "link")
    (.cons "attrs" (.obj (.cons "href" (.str href) .nil)) .nil))

/-- A text node carrying a single link mark. -/
def linkTextNode (href text : String) : JVal :=
  textNodeOf text [linkMarkOf href]

def paraOf (children : List JVal) : JVal :=
  .obj (.cons "type" (.str "paragraph")
    (.cons "content" (.arr (JList.ofList children)) .nil))

theorem pyDrop1_hash (id : String) : pyDrop1 ("#" ++ id) = id := by
  simp [pyDrop1, String.toList, String.data_append]

theorem pyStartsWith_hash (id : String) : pyStartsWith ("#" ++ id) "#" = true := by
  simp [pyStartsWith, String.toList, String.data_append, List.isPrefixOf]

theorem hash_append_ne_empty (id : String) : ("#" ++ id) ≠ "" := by
  intro h
  have h2 : ("#" ++ id).data = "".data := by rw [h]
  simp [String.data_append] at h2

/-- A `#id` link mark resolves to `<<id,text>>` when `id` is registered in
the context's anchor set at render time. -/
theorem gntc_samepage_link (fuel : Nat) (ctx : Ctx) (id text : String)
    (hreg : ctx.anchorRegistered (.str id) = true)
    (hcell : ctx.in_table_cell = false) :
    getNodeTextContent (fuel + 1) (linkTextNode ("#" ++ id) text) ctx
      = .ok ("<<" ++ id ++ "," ++ text ++ ">>") := by
  simp [getNodeTextContent, linkTextNode, textNodeOf, linkMarkOf, gntcFoldMarks,
    gntcApplyMark, JVal.isTruthy, JVal.typeStr?, JVal.dgetD, JVal.dget?,
    JFields.lookup?, pyStr, pyStartsWith_hash, pyDrop1_hash, hreg, hcell]
  rfl

/-- A `#id` link mark rendered while `id` is *not* registered falls
through (when the href does not contain the Jira base URL) to the generic
link formatting of the final block. -/
theorem gntc_samepage_link_unregistered (fuel : Nat) (ctx : Ctx) (id text : String)
    (hreg : ctx.anchorRegistered (.str id) = false)
    (hcell : ctx.in_table_cell = false)
    (hjira : pyInStr (ctx.jira_env.getD "https://jira.example.com") ("#" ++ id)
      = false) :
    getNodeTextContent (fuel + 1) (linkTextNode ("#" ++ id) text) ctx
      = .ok (applyLinkHref ("#" ++ id) text) := by
  simp [getNodeTextContent, linkTextNode, textNodeOf, linkMarkOf, gntcFoldMarks,
    gntcApplyMark, gntcJiraCheck, JVal.isTruthy, JVal.typeStr?, JVal.dgetD,
    JVal.dget?, JFields.lookup?, pyStr, pyStartsWith_hash, pyDrop1_hash, hreg,
    hcell, hjira]
  show Except.ok (if ("#" ++ id) = "" then text else applyLinkHref ("#" ++ id) text)
    = Except.ok (applyLinkHref ("#" ++ id) text)
  rw [if_neg (hash_append_ne_empty id)]

/-- C6: same-page anchors resolve order-sensitively.  (i) The `anchor`
inline-extension macro takes the id from its first unnamed parameter,
emits `[[id]]` and registers the id in the context's anchor set, where it
is then a member.  (ii) A link mark with href `#id` renders `<<id,text>>`
whenever `id` is registered at render time.  (iii) When `id` is not
registered (and the href does not contain the Jira base URL, which would
take a higher-priority branch), the mark does not produce a
cross-reference but falls through to the generic link formatting.
(iv) Concretely, anchor-then-link renders `[[s1]]… <<s1,to>>` while
link-then-anchor renders `link:#s1[to] … [[s1]]`. -/
theorem claim_C6_anchor_order (fuel : Nat) (ctx : Ctx) (id text : String)
    (hid : id ≠ "") :
    (process_inline_extension_node (anchorNode id) ctx
        = (["[[" ++ id ++ "]]"], ctx.registerAnchor (.str id)) ∧
      (ctx.registerAnchor (.str id)).anchorRegistered (.str id) = true) ∧
    (ctx.anchorRegistered (.str id) = true → ctx.in_table_cell = false →
      getNodeTextContent (fuel + 1) (linkTextNode ("#" ++ id) text) ctx
        = .ok ("<<" ++ id ++ "," ++ text ++ ">>")) ∧
    (ctx.anchorRegistered (.str id) = false → ctx.in_table_cell = false →
      pyInStr (ctx.jira_env.getD "https://jira.example.com") ("#" ++ id) = false →
      getNodeTextContent (fuel + 1) (linkTextNode ("#" ++ id) text) ctx
        = .ok (applyLinkHref ("#" ++ id) text)) ∧
    (processContentList 20 (JList.ofList
        [paraOf [anchorNode "s1", plainTextNode "Sec"], paraOf [linkTextNode "#s1" "to"]])
        { anchors := some [] } "").map Prod.fst
      = .ok ["[[s1]]Sec\n", "<<s1,to>>\n"] ∧
    (processContentList 20 (JList.ofList
        [paraOf [linkTextNode "#s1" "to"], paraOf [anchorNode "s1", plainTextNode "Sec"]])
        { anchors := some [] } "").map Prod.fst
      = .ok ["link:#s1[to]\n", "[[s1]]Sec\n"] := by
  refine ⟨⟨?_, ?_⟩, fun h1 h2 => gntc_samepage_link fuel ctx id text h1 h2,
    fun h1 h2 h3 => gntc_samepage_link_unregistered fuel ctx id text h1 h2 h3,
    by decide, by decide⟩
  · simp [process_inline_extension_node, anchorNode, JVal.isTruthy, JVal.dgetD,
      JVal.dget?, JFields.lookup?, pyStr, hid]
  · simp [Ctx.registerAnchor, Ctx.anchorRegistered]

theorem claim_C6_anchor_order_witness :
    (process_inline_extension_node (anchorNode "s1") { anchors := some [] }
        = (["[[s1]]"], ({ anchors := some [] } : Ctx).registerAnchor (.str "s1")) ∧
      (({ anchors := some [] } : Ctx).registerAnchor (.str "s1")).anchorRegistered
        (.str "s1") = true) ∧
    getNodeTextContent 5 (linkTextNode "#s1" "to") { anchors := some [.str "s1"] }
      = .ok "<<s1,to>>" ∧
    getNodeTextContent 5 (linkTextNode "#s1" "to") { anchors := some [] }
      = .ok (applyLinkHref "#s1" "to") := by
  refine ⟨(claim_C6_anchor_order 4 { anchors := some [] } "s1" "to" (by decide)).1,
    ?_, ?_⟩
  · exact (claim_C6_anchor_order 4 { anchors := some [.str "s1"] } "s1" "to"
      (by decide)).2.1 (by decide) rfl
  · exact (claim_C6_anchor_order 4 { anchors := some [] } "s1" "to"
      (by decide)).2.2.1 (by decide) rfl (by decide)

/-!
Section: C7 — table cell classification, prefixes and escaping
-/

/-- The complex-content test of the cell loop (lines 147–152): a direct
child of type bulletList, orderedList, codeBlock or panel. -/
def isComplexCellChild (cn : JVal) : Bool :=
  decide (cn.dget? "type" = some (.str "bulletList") ∨
    cn.dget? "type" = some (.str "orderedList") ∨
    cn.dget? "type" = some (.str "codeBlock") ∨
    cn.dget? "type" = some (.str "panel"))

def hasComplexChild (node : JVal) : Bool :=
  (contentList node).any isComplexCellChild

/-- The `has_complex_content` flag coming out of the cell content loop is
the initial flag or-ed with "some child has a complex type". -/
theorem cellLoop_flag : ∀ (fuel : Nat) (children : List JVal) (ctx : Ctx)
    (lines : List String) (hc hp : Bool) (r : (List String × Bool) × Ctx),
    cellContentsLoop fuel children ctx lines hc hp = .ok r →
    r.1.2 = (hc || children.any isComplexCellChild)
  | 0, _, _, _, _, _, _ => by intro h; simp [cellContentsLoop] at h
  | _ + 1, [], ctx, lines, hc, hp, r => by
    intro h
    simp [cellContentsLoop] at h
    simp [← h]
  | fuel + 1, cn :: rest, ctx, lines, hc, hp, r => by
    intro h
    simp only [cellContentsLoop] at h
    cases hpn : processNode fuel cn ctx "" with
    | error e =>
      rw [hpn] at h
      exact Except.noConfusion
        (show (Except.error e : Except PyErr ((List String × Bool) × Ctx))
          = Except.ok r from h)
    | ok p =>
      rw [hpn] at h
      have ih := cellLoop_flag fuel rest p.2 _ _ _ r h
      rw [ih]
      simp [isComplexCellChild, List.any_cons, Bool.or_assoc]

/-- The row loop renders every content child through
`process_table_cell_node` and prefixes `a| ` or `| ` by its complex
flag. -/
theorem rowLoop_shape : ∀ (fuel : Nat) (cells : List JVal) (ctx : Ctx)
    (r : List String × Ctx), rowCellsLoop fuel cells ctx = .ok r →
    ∃ ps : List (String × Bool),
      r.1 = ps.map (fun p => (if p.2 then "a| " else "| ") ++ p.1) ∧
      ∀ p ∈ ps, ∃ f cn c1 c2, processTableCellNode f cn c1 = .ok (p, c2)
  | 0, _, _, _ => by intro h; simp [rowCellsLoop] at h
  | _ + 1, [], ctx, r => by
    intro h
    simp [rowCellsLoop] at h
    exact ⟨[], by simp [← h], by simp⟩
  | fuel + 1, c :: rest, ctx, r => by
    intro h
    simp only [rowCellsLoop] at h
    cases hc1 : processTableCellNode fuel c ctx with
    | error e =>
      rw [hc1] at h
      exact Except.noConfusion
        (show (Except.error e : Except PyErr (List String × Ctx))
          = Except.ok r from h)
    | ok q =>
      rw [hc1] at h
      have h2 : (do
          let p ← rowCellsLoop fuel rest q.2
          Except.ok ((((if q.1.2 then "a| " else "| ") ++ q.1.1) :: p.1), p.2))
          = .ok r := h
      cases hrest : rowCellsLoop fuel rest q.2 with
      | error e =>
        rw [hrest] at h2
        exact Except.noConfusion
          (show (Except.error e : Except PyErr (List String × Ctx))
            = Except.ok r from h2)
      | ok rr =>
        rw [hrest] at h2
        have h3 : Except.ok ((((if q.1.2 then "a| " else "| ") ++ q.1.1) :: rr.1), rr.2)
            = Except.ok r := h2
        simp only [Except.ok.injEq] at h3
        obtain ⟨ps, hmap, hmem⟩ := rowLoop_shape fuel rest q.2 rr hrest
        refine ⟨q.1 :: ps, ?_, ?_⟩
        · rw [← h3]
          simp [hmap]
        · intro p hp
          rcases List.mem_cons.mp hp with hpq | hps
          · exact ⟨fuel, c, ctx, q.2, by rw [hpq]; exact hc1⟩
          · exact hmem p hps

/-- C7 counterexample: there is no colspan/rowspan handling anywhere in
the renderer — a cell with `colspan = 2` renders with a bare `| ` prefix
and no `2+` span marker. -/
def c7cell : JVal :=
  .obj (.cons "type" (.str "tableCell")
    (.cons "attrs" (.obj (.cons "colspan" (.int 2) .nil))
      (.cons "content" (.arr (.cons (paraOf [plainTextNode "x"]) .nil)) .nil)))

def c7row : JVal :=
  .obj (.cons "type" (.str "tableRow")
    (.cons "content" (.arr (.cons c7cell .nil)) .nil))

/-- C7 counterexample: the row holding a `colspan = 2` cell renders as
`"| x\n"` — prefix `| ` immediately, no `2+` (or any span) marker before
the pipe, contradicting the span-marker part of the claim. -/
theorem claim_C7_counterexample :
    (processTableRowNode 20 c7row {}).map Prod.fst = .ok "| x\n" ∧
    pyInStr "2+" "| x\n" = false ∧
    (processTableCellNode 20 c7cell {}).map Prod.fst = .ok ("x", false) := by
  refine ⟨by decide, by decide, by decide⟩

/-- C7 amended: the classification, prefix and escaping parts of the claim
hold — a successfully rendered cell is complex iff it has a direct child
of type bulletList/orderedList/codeBlock/panel or its rendered text
contains a newline; a cell with no complex child has its text passed
through the pipe-escaping corrective pass; and a rendered row is the
space-separated sequence of its cells, each prefixed `a| ` when complex
and `| ` when simple.  No span markers exist (see the counterexample). -/
theorem claim_C7_amended :
    (∀ (fuel : Nat) (node : JVal) (ctx : Ctx) (text : String) (cpx : Bool)
      (ctx' : Ctx), processTableCellNode fuel node ctx = .ok ((text, cpx), ctx') →
      cpx = (hasComplexChild node || pyInStr "\n" text) ∧
      (hasComplexChild node = false →
        ∃ raw, text = pyReplace (pyReplace raw "|" "\\|") "\\\\|" "\\|")) ∧
    (∀ (fuel : Nat) (node : JVal) (ctx : Ctx) (row : String) (ctx' : Ctx),
      processTableRowNode fuel node ctx = .ok (row, ctx') →
      ∃ ps : List (String × Bool),
        row = String.intercalate " "
          (ps.map (fun p => (if p.2 then "a| " else "| ") ++ p.1)) ++ "\n" ∧
        ∀ p ∈ ps, ∃ f cn c1 c2, processTableCellNode f cn c1 = .ok (p, c2)) := by
  constructor
  · intro fuel node ctx text cpx ctx' h
    match fuel with
    | 0 => simp [processTableCellNode] at h
    | fuel + 1 =>
      simp only [processTableCellNode] at h
      cases hloop : cellContentsLoop fuel (contentList node)
          { ctx with in_table_cell := true } [] false false with
      | error e =>
        rw [hloop] at h
        exact absurd
          (show (Except.error e : Except PyErr ((String × Bool) × Ctx))
            = Except.ok ((text, cpx), ctx') from h) (by simp)
      | ok q =>
        rw [hloop] at h
        have h2 : Except.ok
            ((if !q.1.2 then
                pyReplace (pyReplace (String.intercalate "\n" q.1.1) "|" "\\|")
                  "\\\\|" "\\|"
              else String.intercalate "\n" q.1.1,
              q.1.2 || pyInStr "\n"
                (if !q.1.2 then
                  pyReplace (pyReplace (String.intercalate "\n" q.1.1) "|" "\\|")
                    "\\\\|" "\\|"
                 else String.intercalate "\n" q.1.1)),
             ctx.mergeShared q.2) = Except.ok ((text, cpx), ctx') := h
        have hflag : q.1.2 = hasComplexChild node := by
          have := cellLoop_flag fuel (contentList node)
            { ctx with in_table_cell := true } [] false false q hloop
          simpa [hasComplexChild] using this
        simp only [Except.ok.injEq, Prod.mk.injEq] at h2
        obtain ⟨⟨htext, hcpx⟩, -⟩ := h2
        constructor
        · rw [← hcpx, htext, hflag]
        · intro hnc
          rw [← htext, hflag, hnc]
          exact ⟨String.intercalate "\n" q.1.1, by simp⟩
  · intro fuel node ctx row ctx' h
    match fuel with
    | 0 => simp [processTableRowNode] at h
    | fuel + 1 =>
      simp only [processTableRowNode] at h
      cases hloop : rowCellsLoop fuel
          (match node.dget? "content" with | some (.arr l) => l.toList | _ => [])
          ctx with
      | error e =>
        rw [hloop] at h
        exact absurd
          (show (Except.error e : Except PyErr (String × Ctx))
            = Except.ok (row, ctx') from h) (by simp)
      | ok q =>
        rw [hloop] at h
        have h2 : Except.ok (String.intercalate " " q.1 ++ "\n", q.2)
            = Except.ok (row, ctx') := h
        simp only [Except.ok.injEq, Prod.mk.injEq] at h2
        obtain ⟨ps, hmap, hmem⟩ := rowLoop_shape fuel _ ctx q hloop
        exact ⟨ps, by rw [← h2.1, hmap], hmem⟩

theorem claim_C7_amended_witness :
    (false = (hasComplexChild c7cell || pyInStr "\n" "x") ∧
      (hasComplexChild c7cell = false →
        ∃ raw, "x" = pyReplace (pyReplace raw "|" "\\|") "\\\\|" "\\|")) ∧
    ∃ ps : List (String × Bool),
      "| x\n" = String.intercalate " "
        (ps.map (fun p => (if p.2 then "a| " else "| ") ++ p.1)) ++ "\n" ∧
      ∀ p ∈ ps, ∃ f cn c1 c2, processTableCellNode f cn c1 = .ok (p, c2) :=
  ⟨claim_C7_amended.1 20 c7cell {} "x" false {} rfl,
   claim_C7_amended.2 20 c7row {} "| x\n" {} rfl⟩

/-!
Section: C8 — anchor registrations inside table cells and the sub-context
boundary
-/

/-- A table cell whose content is a single anchor macro. -/
def cellWithAnchor (id : String) : JVal :=
  .obj (.cons "type" (.str "tableCell")
    (.cons "content" (.arr (.cons (anchorNode id) .nil)) .nil))

theorem empty_string_append (s : String) : "" ++ s = s := rfl

theorem except_ok_bind {e a b : Type} (x : a) (f : a → Except e b) :
    (do let y ← (Except.ok x : Except e a); f y) = f x := rfl

theorem pyTrim_anchor (id : String) :
    pyTrim ("[[" ++ id ++ "]]") = "[[" ++ id ++ "]]" := by
  have hdata : ("[[" ++ id ++ "]]").toList
      = '[' :: '[' :: (id.toList ++ [']', ']']) := by
    simp [String.toList, String.data_append]
  simp [pyTrim, hdata, List.dropWhile]
  have h3 : ("[[" ++ id ++ "]]").data = '[' :: '[' :: (id.data ++ [']', ']']) := by
    simp [String.data_append]
  exact (congrArg String.mk h3).symm

theorem brackets_ne_empty (id : String) : ("[[" ++ id ++ "]]") ≠ "" := by
  intro h
  have h2 : ("[[" ++ id ++ "]]").data = "".data := by rw [h]
  simp [String.data_append] at h2

/-- Dispatching the anchor macro inside the cell sub-context emits the
`[[id]]` asciidoc anchor and registers the id. -/
theorem c8_processNode_anchor (fuel : Nat) (ctx : Ctx) (id : String)
    (hskip : ctx.next_node_to_skip = none) (hid : id ≠ "") :
    processNode (fuel + 1) (anchorNode id) { ctx with in_table_cell := true } ""
      = .ok (["[[" ++ id ++ "]]"],
          { ctx with in_table_cell := true, anchors := some (ctx.anchors.getD [] ++ [JVal.str id]) }) := by
  simp [processNode, anchorNode, process_inline_extension_node, JVal.dget?,
    JVal.dgetD, JFields.lookup?, JVal.isTruthy, pyStr, Ctx.registerAnchor,
    hskip, hid]

/-- The cell content loop on the single-anchor cell: one registered anchor,
one line, no complex content. -/
theorem c8_loop (fuel : Nat) (ctx : Ctx) (id : String)
    (hskip : ctx.next_node_to_skip = none) (hid : id ≠ "") :
    cellContentsLoop (fuel + 2) [anchorNode id]
      { ctx with in_table_cell := true } [] false false
      = .ok ((["[[" ++ id ++ "]]"], false),
          { ctx with in_table_cell := true, anchors := some (ctx.anchors.getD [] ++ [JVal.str id]) }) := by
  have hpn := c8_processNode_anchor fuel ctx id hskip hid
  simp only [cellContentsLoop, hpn]
  have hpt : pyTrim (String.join ["[[" ++ id ++ "]]"])
      = "[[" ++ id ++ "]]" := pyTrim_anchor id
  rw [except_ok_bind]
  simp only []
  rw [hpt]
  simp [brackets_ne_empty id, anchorNode, JVal.dget?, JFields.lookup?]

/-- C8 amended: anchor registrations made inside a table cell survive the
cell boundary, and a later same-page link outside the cell resolves,
*provided the outer context already owns an anchors collection* — the cell
sub-context is a shallow copy, so the anchors dict is shared only when it
exists at copy time; the `in_table_cell` flag itself stays cell-local
unconditionally.  (The unamended claim fails exactly when the outer
context lacks the anchors key — the situation of the production context —
see the counterexample.) -/
theorem claim_C8_amended (fuel : Nat) (ctx : Ctx) (A : List JVal) (id : String)
    (r : String × Bool) (ctx' : Ctx)
    (hA : ctx.anchors = some A)
    (hskip : ctx.next_node_to_skip = none)
    (hid : id ≠ "")
    (h : processTableCellNode (fuel + 3) (cellWithAnchor id) ctx = .ok (r, ctx')) :
    ctx'.anchors = some (A ++ [.str id]) ∧
    ctx'.in_table_cell = ctx.in_table_cell ∧
    ctx'.anchorRegistered (.str id) = true ∧
    ∀ (fuel2 : Nat) (text : String), ctx.in_table_cell = false →
      getNodeTextContent (fuel2 + 1) (linkTextNode ("#" ++ id) text) ctx'
        = .ok ("<<" ++ id ++ "," ++ text ++ ">>") := by
  have hloop := c8_loop fuel ctx id hskip hid
  simp only [processTableCellNode] at h
  rw [show contentList (cellWithAnchor id) = [anchorNode id] from rfl] at h
  rw [hloop] at h
  have h2 := Except.ok.inj h
  rw [Prod.mk.injEq] at h2
  have hctx' := h2.2
  have hanch : ctx'.anchors = some (A ++ [.str id]) := by
    rw [← hctx']
    simp [Ctx.mergeShared, hA]
  have hcell : ctx'.in_table_cell = ctx.in_table_cell := by
    rw [← hctx']
    simp [Ctx.mergeShared]
  have hreg : ctx'.anchorRegistered (.str id) = true := by
    simp [Ctx.anchorRegistered, hanch]
  refine ⟨hanch, hcell, hreg, fun fuel2 text hc => ?_⟩
  exact gntc_samepage_link fuel2 ctx' id text hreg (hcell.trans hc)

/-- C8 counterexample: when the outer context owns no anchors collection —
exactly the situation of the production context built in
`confluence_to_asciidoc.py`, which has no `"anchors"` key — `setdefault`
creates the anchors dict in the cell's shallow copy only, the registration
is dropped at the cell boundary, and a later link to the id outside the
cell does not resolve as `<<a1,t>>`; with an anchors collection present in
the outer context the very same cell makes the later link resolve. -/
theorem claim_C8_counterexample :
    (processTableCellNode 20 (cellWithAnchor "a1") {}).map
        (fun p => (p.1, p.2.anchors, p.2.in_table_cell))
      = .ok (("[[a1]]", false), none, false) ∧
    getNodeTextContent 5 (linkTextNode "#a1" "t") {} = .ok "link:#a1[t]" ∧
    "link:#a1[t]" ≠ "<<a1,t>>" ∧
    (processTableCellNode 20 (cellWithAnchor "a1") { anchors := some [] }).map
        (fun p => (p.1, p.2.anchors, p.2.in_table_cell))
      = .ok (("[[a1]]", false), some [.str "a1"], false) ∧
    getNodeTextContent 5 (linkTextNode "#a1" "t") { anchors := some [.str "a1"] }
      = .ok "<<a1,t>>" := by
  refine ⟨by decide, by decide, by decide, by decide, by decide⟩

theorem claim_C8_amended_witness :
    ({ anchors := some [JVal.str "a1"] } : Ctx).anchors
      = some ([] ++ [JVal.str "a1"]) ∧
    getNodeTextContent 5 (linkTextNode "#a1" "t") { anchors := some [JVal.str "a1"] }
      = .ok "<<a1,t>>" := by
  have h := claim_C8_amended 17 { anchors := some [] } [] "a1" ("[[a1]]", false)
    { anchors := some [JVal.str "a1"] } rfl rfl (by decide) rfl
  exact ⟨h.1, h.2.2.2 4 "t" rfl⟩
